import Mathlib

/-!
The class template `dynasor<T>` of `dynasor.h`: a dynamically shaped dense tensor.

A shallow embedding of the class template `dynasor<T>`:

* `std::vector<size_t> number_of_elements_in_dimension_` and `std::vector<T> data_`
  are lists; a `size_t` / `unsigned long long` is a natural number and every
  arithmetic operation of the source on such a value is reduced modulo `2 ^ 64`;
* a member function that can throw, or that can read a vector or an iterator
  range outside its bounds, returns `Except Err _`;
* the loops of `index` are recursive functions on an explicit step budget, and
  `index` hands them a budget that is proved to be enough;
* memory is unbounded: `std::vector::resize` never fails;
* the engine and the distributions of `<random>` are parameters of the random
  factories.
-/

set_option autoImplicit false

/-- Number of values of a 64-bit `size_t` / `unsigned long long`. -/
def SIZE_MOD : Nat := 2 ^ 64

/-- Conversion of an integral value to `size_t`, as performed when an extent is
copied into `std::vector<size_t>`. -/
def to_size_t (x : Nat) : Nat := x % SIZE_MOD

/-- The subtraction `a - b` of two `unsigned long long` values: it wraps around
when `a < b`. -/
def usub (a b : Nat) : Nat := if b ≤ a then a - b else a + SIZE_MOD - b

/-- Ways in which a call can fail to return a value.  The source throws only
one exception, the `std::runtime_error` of `index`; `shape_storage_mismatch`
and `invalid_distribution_parameters` are the other error kinds named by the
specification, which the source never raises; `undefined_behaviour` marks a
read outside a vector or an iterator range; `out_of_steps` marks a loop that used up its step budget;
`wrap_around` is reported only by the instrumented copy of `index`, when an
arithmetic result does not fit in 64 bits. -/
inductive Err where
  | rank_mismatch
  | shape_storage_mismatch
  | invalid_distribution_parameters
  | undefined_behaviour
  | out_of_steps
  | wrap_around
  deriving DecidableEq

deriving instance DecidableEq for Except

/-- The execution policies of `<execution>`, passed to the constructors as a hint. -/
inductive ExPo where
  | seq
  | par
  | par_unseq
  | unseq
  deriving DecidableEq

/-- Algorithm `std::copy(expo, first, last, out)`: element `k` of the source
range overwrites element `k` of the destination, for every policy.  In the
source the destination always has the length of the source range. -/
def std_copy {α : Type} (_expo : ExPo) (src dst : List α) : List α :=
  src ++ dst.drop src.length

/-- Algorithm `std::reduce(expo, first, last, 1ULL, std::multiplies<size_t>())`:
the product of the range in `size_t` arithmetic.  Multiplication modulo
`2 ^ 64` is associative and commutative, so the grouping chosen by a parallel
policy does not change the result. -/
def std_reduce (_expo : ExPo) (xs : List Nat) (init : Nat) : Nat :=
  xs.foldl (fun acc x => (acc * x) % SIZE_MOD) init

/-- Member `std::vector<T>::resize(n, v)`. -/
def vector_resize {T : Type} (xs : List T) (n : Nat) (v : T) : List T :=
  xs.take n ++ List.replicate (n - xs.length) v

/-- Algorithm `std::generate(std::execution::seq, first, last, g)` for a
stateful generator `g`: slot `k` receives the result of call number `k`. -/
def std_generate {σ T : Type} (g : σ → T × σ) : List T → σ → List T × σ
  | [], s => ([], s)
  | _ :: rest, s =>
    let r := g s
    let rs := std_generate g rest r.2
    (r.1 :: rs.1, rs.2)

/-- The two private members of `dynasor<T>`. -/
structure dynasor (T : Type) where
  number_of_elements_in_dimension_ : List Nat
  data_ : List T
  deriving DecidableEq

namespace dynasor

variable {T : Type}

/-- Default constructor `dynasor()`. -/
def ctor_default : dynasor T :=
  { number_of_elements_in_dimension_ := [], data_ := [] }

/-- Constructor `dynasor(expo, dimbeg, dimend)`. -/
def ctor_shape [Zero T] (expo : ExPo) (d : List Nat) : dynasor T :=
  let dims := std_copy expo (d.map to_size_t) (List.replicate d.length 0)
  let data_size := std_reduce expo dims 1
  { number_of_elements_in_dimension_ := dims, data_ := vector_resize [] data_size 0 }

/-- Constructor `dynasor(expo, dimbeg, dimend, initval)`. -/
def ctor_fill (expo : ExPo) (d : List Nat) (initval : T) : dynasor T :=
  let dims := std_copy expo (d.map to_size_t) (List.replicate d.length 0)
  let data_size := std_reduce expo dims 1
  { number_of_elements_in_dimension_ := dims, data_ := vector_resize [] data_size initval }

/-- Constructor `dynasor(expo, dimbeg, dimend, valbeg, valend)`; the values are
taken after their conversion to `T`. -/
def ctor_values [Zero T] (expo : ExPo) (d : List Nat) (v : List T) : dynasor T :=
  { number_of_elements_in_dimension_ :=
      std_copy expo (d.map to_size_t) (List.replicate d.length 0),
    data_ := std_copy expo v (List.replicate v.length 0) }

/-- Constructor `dynasor(expo, dimbeg, dimend, f, args...)`.  The flag
`invocable` is the compile-time test `std::is_invocable_r_v<T, F, Args...>`;
the generator is a state transformer returning the next value.  The result is
the tensor and the state in which the generator is left. -/
def ctor_generate [Zero T] {σ : Type} (invocable : Bool) (expo : ExPo) (d : List Nat)
    (g : σ → T × σ) (s : σ) : dynasor T × σ :=
  if invocable then
    let dims := std_copy expo (d.map to_size_t) (List.replicate d.length 0)
    let data_size := std_reduce expo dims 1
    let r := std_generate g (vector_resize [] data_size (0 : T)) s
    ({ number_of_elements_in_dimension_ := dims, data_ := r.1 }, r.2)
  else
    ({ number_of_elements_in_dimension_ := List.replicate d.length 0, data_ := [] }, s)

/-- The call of a constructor as the caller sees it: none of the constructor
bodies contains a `throw`, so the call completes with the object built. -/
def construct_values [Zero T] (expo : ExPo) (d : List Nat) (v : List T) :
    Except Err (dynasor T) :=
  .ok (ctor_values expo d v)

/-- Member `number_of_dimensions()`. -/
def number_of_dimensions (t : dynasor T) : Nat :=
  t.number_of_elements_in_dimension_.length

/-- Member `data()`. -/
def data (t : dynasor T) : List T := t.data_

/-- Inner loop of `index`:
`for (auto m{ d + 1ULL }; m <= nd - 1ULL; ++m) nm *= number_of_elements_in_dimension_[m];`
started at counter `m` with accumulator `nm`; `last` is the value of
`nd - 1ULL`.  The counter cannot wrap: the read just before `++m` succeeded,
so `m` is below the size of the vector. -/
def index_inner (dims : List Nat) (last : Nat) : Nat → Nat → Nat → Except Err Nat
  | 0, _, _ => .error .out_of_steps
  | steps + 1, m, nm =>
    if m ≤ last then
      match dims[m]? with
      | none => .error .undefined_behaviour
      | some x => index_inner dims last steps (m + 1) ((nm * x) % SIZE_MOD)
    else .ok nm

/-- Outer loop of `index`:
`for (auto d{ 0ULL }; d <= nd - 2ULL; ++d) { nm = ...; I += (*std::next(idxbeg, d) * nm); }`
started at counter `d` with accumulator `I`. -/
def index_outer (dims idx : List Nat) (nd : Nat) : Nat → Nat → Nat → Except Err Nat
  | 0, _, _ => .error .out_of_steps
  | steps + 1, d, I =>
    if d ≤ usub nd 2 then
      match index_inner dims (usub nd 1) (dims.length + 1) (d + 1) 1 with
      | .error e => .error e
      | .ok nm =>
        match idx[d]? with
        | none => .error .undefined_behaviour
        | some a => index_outer dims idx nd steps (d + 1) ((I + (a * nm) % SIZE_MOD) % SIZE_MOD)
    else .ok I

/-- Member `index(idxbeg, idxend)`: the N-dimensional to 1-dimensional index
converter.  The multi-index is given by its values as `unsigned long long`. -/
def index (t : dynasor T) (idx : List Nat) : Except Err Nat :=
  if idx.length = t.number_of_dimensions then
    let nd := t.number_of_dimensions
    match index_outer t.number_of_elements_in_dimension_ idx nd (idx.length + 1) 0 0 with
    | .error e => .error e
    | .ok I =>
      match idx[usub nd 1]? with
      | none => .error .undefined_behaviour
      | some a => .ok ((I + a) % SIZE_MOD)
  else .error .rank_mismatch

/-- Expression `data_[k]` read as a value. -/
def data_at (t : dynasor T) (k : Nat) : Except Err T :=
  match t.data_[k]? with
  | none => .error .undefined_behaviour
  | some x => .ok x

/-- Assignment `data_[k] = x` through a reference to the element. -/
def data_assign (t : dynasor T) (k : Nat) (x : T) : Except Err (dynasor T) :=
  if k < t.data_.length then .ok { t with data_ := t.data_.set k x }
  else .error .undefined_behaviour

/-- Member `element(idxbeg, idxend) const -> T`. -/
def element (t : dynasor T) (idx : List Nat) : Except Err T :=
  match t.index idx with
  | .error e => .error e
  | .ok k => t.data_at k

/-- Member `operator()(idxbeg, idxend) const -> T`. -/
def call (t : dynasor T) (idx : List Nat) : Except Err T :=
  match t.index idx with
  | .error e => .error e
  | .ok k => t.data_at k

/-- Statement `t.element(idxbeg, idxend) = x` through the accessor returning
`T&`: the outcome of the statement and the tensor after it.  When the accessor
throws, nothing has been written. -/
def element_assign (t : dynasor T) (idx : List Nat) (x : T) : Except Err Unit × dynasor T :=
  match t.index idx with
  | .error e => (.error e, t)
  | .ok k =>
    match t.data_assign k x with
    | .error e => (.error e, t)
    | .ok t1 => (.ok (), t1)

/-- Statement `t(idxbeg, idxend) = x` through the call operator returning `T&`. -/
def call_assign (t : dynasor T) (idx : List Nat) (x : T) : Except Err Unit × dynasor T :=
  match t.index idx with
  | .error e => (.error e, t)
  | .ok k =>
    match t.data_assign k x with
    | .error e => (.error e, t)
    | .ok t1 => (.ok (), t1)

/-- Factory `zeros(expo, dimbeg, dimend)`. -/
def zeros [Zero T] (expo : ExPo) (d : List Nat) : dynasor T :=
  ctor_fill expo d 0

/-- Factory `ones(expo, dimbeg, dimend)`. -/
def ones [One T] (expo : ExPo) (d : List Nat) : dynasor T :=
  ctor_fill expo d 1

end dynasor

/-- The linear offset as the specification writes it:
`Σ_{k=0}^{R-2} i[k] · (Π_{m=k+1}^{R-1} d[m]) + i[R-1]`. -/
def spec_offset (d i : List Nat) : Nat :=
  (∑ k ∈ Finset.range (d.length - 1), i.getD k 0 * ∏ m ∈ Finset.Ico (k + 1) d.length, d.getD m 0)
    + i.getD (d.length - 1) 0

/-- A multi-index is in range for the extents `d`: it has one coordinate per
axis and every coordinate is below its extent. -/
def in_range (d i : List Nat) : Prop :=
  i.length = d.length ∧ ∀ k, k < d.length → i.getD k 0 < d.getD k 0

instance (d i : List Nat) : Decidable (in_range d i) := by
  unfold in_range; infer_instance

/-- The storage invariant as the code establishes it: the length of `data()` is
the product of the stored extents reduced modulo `2 ^ 64`, hence the product
itself whenever that is below `2 ^ 64`. -/
def length_is_product {T : Type} (t : dynasor T) : Prop :=
  t.data.length = t.number_of_elements_in_dimension_.prod % SIZE_MOD
  ∧ (t.number_of_elements_in_dimension_.prod < SIZE_MOD →
      t.data.length = t.number_of_elements_in_dimension_.prod)

/-- Auxiliary closed form of the offset, by recursion on the axes: the first
coordinate is weighted by the product of all later extents. -/
def row_major : List Nat → List Nat → Nat
  | _ :: ds, a :: is_ => a * ds.prod + row_major ds is_
  | _, _ => 0

/-- State of a stateful generator after `k` invocations, started in state `s`. -/
def invocation_state {σ T : Type} (g : σ → T × σ) (s : σ) : Nat → σ
  | 0 => s
  | k + 1 => (g (invocation_state g s k)).2

/-- Value returned by invocation number `k` (counting from 0) of a stateful
generator started in state `s`. -/
def invocation_result {σ T : Type} (g : σ → T × σ) (s : σ) (k : Nat) : T :=
  (g (invocation_state g s k)).1

/-- The generator `g` with a counter of its invocations added to its state. -/
def counting {σ T : Type} (g : σ → T × σ) (s : σ × Nat) : T × (σ × Nat) :=
  ((g s.1).1, ((g s.1).2, s.2 + 1))

/-- The Horner scheme: folding `acc := acc * d[k] + i[k]` over `k = 0..R-1`
starting from `acc = 0`. -/
def horner_offset (d i : List Nat) : Nat :=
  (List.zip d i).foldl (fun acc p => acc * p.1 + p.2) 0

/-- A 64-bit multiplication that reports a result which does not fit. -/
def mul_no_wrap (a b : Nat) : Except Err Nat :=
  if a * b < SIZE_MOD then .ok (a * b) else .error .wrap_around

/-- A 64-bit addition that reports a result which does not fit. -/
def add_no_wrap (a b : Nat) : Except Err Nat :=
  if a + b < SIZE_MOD then .ok (a + b) else .error .wrap_around

namespace dynasor

variable {T : Type}

/-- The inner loop of `index` with every `nm *= ...` instrumented to report a
suffix product that wraps around. -/
def index_inner_checked (dims : List Nat) (last : Nat) : Nat → Nat → Nat → Except Err Nat
  | 0, _, _ => .error .out_of_steps
  | steps + 1, m, nm =>
    if m ≤ last then
      match dims[m]? with
      | none => .error .undefined_behaviour
      | some x =>
        match mul_no_wrap nm x with
        | .error e => .error e
        | .ok p => index_inner_checked dims last steps (m + 1) p
    else .ok nm

/-- The outer loop of `index` with the term `i[d] * nm` and the sum
`I += ...` instrumented to report a value that wraps around. -/
def index_outer_checked (dims idx : List Nat) (nd : Nat) : Nat → Nat → Nat → Except Err Nat
  | 0, _, _ => .error .out_of_steps
  | steps + 1, d, I =>
    if d ≤ usub nd 2 then
      match index_inner_checked dims (usub nd 1) (dims.length + 1) (d + 1) 1 with
      | .error e => .error e
      | .ok nm =>
        match idx[d]? with
        | none => .error .undefined_behaviour
        | some a =>
          match mul_no_wrap a nm with
          | .error e => .error e
          | .ok term =>
            match add_no_wrap I term with
            | .error e => .error e
            | .ok I1 => index_outer_checked dims idx nd steps (d + 1) I1
    else .ok I

/-- Member `index` with every arithmetic operation instrumented: it returns the
offset only if no suffix product, no term and no running sum wraps around. -/
def index_checked (t : dynasor T) (idx : List Nat) : Except Err Nat :=
  if idx.length = t.number_of_dimensions then
    let nd := t.number_of_dimensions
    match index_outer_checked t.number_of_elements_in_dimension_ idx nd (idx.length + 1) 0 0 with
    | .error e => .error e
    | .ok I =>
      match idx[usub nd 1]? with
      | none => .error .undefined_behaviour
      | some a => add_no_wrap I a
  else .error .rank_mismatch

/-- Factory `uniform_random(expo, dimbeg, dimend, seed, param1, param2)`.
The standard library is a parameter: `seed_engine s` is the state of a
`std::mt19937_64` after `rng.seed(s)`, and `rnd a b` is one call `rnd(rng)` of
the distribution constructed as `rnd(a, b)`, which is
`std::uniform_int_distribution<T>` for an integral `T` and
`std::uniform_real_distribution<T>` for a floating-point `T`; it returns the
value drawn and the engine after the draw.  The source makes no test of
`param1` and `param2` and contains no `throw`, so the call completes with the
tensor built. -/
def uniform_random [Zero T] {R : Type} (seed_engine : Nat → R)
    (rnd : T → T → R → T × R) (expo : ExPo) (d : List Nat) (seed : Nat) (param1 param2 : T) :
    Except Err (dynasor T) :=
  let t : dynasor T := zeros expo d
  let rng := seed_engine seed
  .ok { t with data_ := (std_generate (rnd param1 param2) t.data_ rng).1 }

/-- Factory `normal_random(expo, dimbeg, dimend, seed, param1, param2)`.
The standard library is a parameter: `seed_engine s` is the state of a
`std::mt19937_64` after `rng.seed(s)`, `make mu sigma` is the state of the
`std::normal_distribution<T>` constructed as `rnd(mu, sigma)`, and `rnd` is one
call `rnd(rng)` on the pair of distribution and engine.  The source makes no
test of `param1` and `param2` and contains no `throw`, so the call completes
with the tensor built. -/
def normal_random [Zero T] {R D : Type} (seed_engine : Nat → R)
    (make : T → T → D) (rnd : D × R → T × (D × R)) (expo : ExPo) (d : List Nat) (seed : Nat)
    (param1 param2 : T) : Except Err (dynasor T) :=
  let t : dynasor T := zeros expo d
  let rng := seed_engine seed
  .ok { t with data_ := (std_generate rnd t.data_ (make param1 param2, rng)).1 }

/-- Factory `gaussian_random(expo, dimbeg, dimend, seed, param1, param2)`. -/
def gaussian_random [Zero T] {R D : Type} (seed_engine : Nat → R)
    (make : T → T → D) (rnd : D × R → T × (D × R)) (expo : ExPo) (d : List Nat) (seed : Nat)
    (param1 param2 : T) : Except Err (dynasor T) :=
  normal_random seed_engine make rnd expo d seed param1 param2

/-- What the statement `t.element(i) = x` (or `t(i) = x`) achieves: it completes
and leaves a tensor in which both read-only accessors return `x` at `i` and
their former value at every other in-range multi-index, with the rank, the
extents and the storage length of `t`. -/
def assign_then_read (t : dynasor T) (i : List Nat) (x : T) : Prop :=
  ∃ t1, t.element_assign i x = (.ok (), t1)
    ∧ t.call_assign i x = (.ok (), t1)
    ∧ t1.element i = .ok x
    ∧ t1.call i = .ok x
    ∧ (∀ j, in_range t.number_of_elements_in_dimension_ j → j ≠ i →
        ∃ y, t.element j = .ok y ∧ t1.element j = .ok y
          ∧ t.call j = .ok y ∧ t1.call j = .ok y)
    ∧ t1.number_of_dimensions = t.number_of_dimensions
    ∧ t1.number_of_elements_in_dimension_ = t.number_of_elements_in_dimension_
    ∧ t1.data.length = t.data.length

end dynasor

/-- A stand-in for `std::mt19937_64::seed`, used to instantiate the library
parameters at concrete inputs: the engine state is the seed itself. -/
def toy_seed (s : Nat) : Nat := s

/-- A stand-in for `std::uniform_int_distribution<T>`, used to instantiate the
library parameters at concrete inputs: a linear congruential step of the
engine, reduced into `[a, b]`. -/
def toy_uniform (a b : Int) (r : Nat) : Int × Nat :=
  (a + (r : Int) % (b - a + 1), (6364136223846793005 * r + 1442695040888963407) % SIZE_MOD)

/-- A stand-in for `std::normal_distribution<T>`, used to instantiate the
library parameters at concrete inputs: the distribution keeps its two
parameters. -/
def toy_normal (s : (Int × Int) × Nat) : Int × ((Int × Int) × Nat) :=
  (s.1.1 + s.1.2 * ((s.2 : Int) % 3 - 1),
    (s.1, (6364136223846793005 * s.2 + 1442695040888963407) % SIZE_MOD))

/-! ## Arithmetic of `size_t` -/

theorem usub_eq_mod (a b : Nat) (ha : a < SIZE_MOD) (hb : b < SIZE_MOD) :
    usub a b = (a + SIZE_MOD - b) % SIZE_MOD := by
  unfold usub
  split
  · next h =>
    have : a + SIZE_MOD - b = (a - b) + SIZE_MOD := by omega
    rw [this, Nat.add_mod_right, Nat.mod_eq_of_lt (by omega)]
  · next h =>
    rw [Nat.mod_eq_of_lt (by omega)]

theorem acc_step (I a P S M : Nat) :
    ((I + a * (P % M) % M) % M + S) % M = (I + (a * P + S)) % M := by
  rw [Nat.mul_mod_mod, Nat.add_mod_mod, Nat.mod_add_mod, Nat.add_assoc]

theorem two_le_size_mod : 2 ≤ SIZE_MOD := by unfold SIZE_MOD; norm_num

theorem size_mod_pos : 0 < SIZE_MOD := by unfold SIZE_MOD; positivity

/-! ## The loops of `index` -/

theorem prod_Ico_getD_eq_drop (d : List Nat) (n k : Nat) (hn : d.length - k = n) :
    ∏ m ∈ Finset.Ico k d.length, d.getD m 0 = (d.drop k).prod := by
  induction n generalizing k with
  | zero =>
    have hk : d.length ≤ k := by omega
    rw [Finset.Ico_eq_empty (by omega), List.drop_of_length_le hk]
    simp
  | succ n ih =>
    have hk : k < d.length := by omega
    rw [Finset.prod_eq_prod_Ico_succ_bot hk, ih (k + 1) (by omega),
      List.drop_eq_getElem_cons hk, List.prod_cons]
    congr 1
    simp [List.getD_eq_getElem?_getD, List.getElem?_eq_getElem hk]

theorem index_inner_eq (dims : List Nat) (h1 : 1 ≤ dims.length) (steps m nm : Nat)
    (hm : m ≤ dims.length) (hs : dims.length - m < steps) (hnm : nm < SIZE_MOD) :
    dynasor.index_inner dims (dims.length - 1) steps m nm
      = .ok ((nm * (dims.drop m).prod) % SIZE_MOD) := by
  induction steps generalizing m nm with
  | zero => omega
  | succ steps ih =>
    unfold dynasor.index_inner
    by_cases hle : m ≤ dims.length - 1
    · have hlt : m < dims.length := by omega
      rw [if_pos hle, List.getElem?_eq_getElem hlt]
      simp only
      rw [ih (m + 1) _ (by omega) (by omega) (Nat.mod_lt _ size_mod_pos),
        List.drop_eq_getElem_cons hlt, List.prod_cons, Nat.mod_mul_mod, Nat.mul_assoc]
    · have hmeq : m = dims.length := by omega
      rw [if_neg hle, List.drop_of_length_le (by omega)]
      simp [Nat.mod_eq_of_lt hnm]

theorem index_outer_eq (dims idx : List Nat) (hlen : idx.length = dims.length)
    (h2 : 2 ≤ dims.length) (steps d I : Nat)
    (hd : d ≤ dims.length - 1) (hs : dims.length - 1 - d < steps) (hI : I < SIZE_MOD) :
    dynasor.index_outer dims idx dims.length steps d I
      = .ok ((I + ∑ k ∈ Finset.Ico d (dims.length - 1),
          idx.getD k 0 * (dims.drop (k + 1)).prod) % SIZE_MOD) := by
  have hu2 : usub dims.length 2 = dims.length - 2 := by unfold usub; rw [if_pos h2]
  have hu1 : usub dims.length 1 = dims.length - 1 := by unfold usub; rw [if_pos (by omega)]
  induction steps generalizing d I with
  | zero => omega
  | succ steps ih =>
    unfold dynasor.index_outer
    rw [hu2, hu1]
    by_cases hle : d ≤ dims.length - 2
    · have hlt : d < idx.length := by omega
      rw [if_pos hle, index_inner_eq dims (by omega) _ _ _ (by omega) (by omega)
        (by unfold SIZE_MOD; omega)]
      simp only
      rw [List.getElem?_eq_getElem hlt]
      simp only
      rw [ih (d + 1) _ (by omega) (by omega) (Nat.mod_lt _ size_mod_pos),
        Finset.sum_eq_sum_Ico_succ_bot (by omega : d < dims.length - 1)]
      have hg : idx.getD d 0 = idx[d] := by
        simp [List.getD_eq_getElem?_getD, List.getElem?_eq_getElem hlt]
      rw [hg, Nat.one_mul, acc_step]
    · have hdeq : d = dims.length - 1 := by omega
      rw [if_neg hle, hdeq]
      simp [Nat.mod_eq_of_lt hI]

/-! ## Closed form of `index` for rank at least 2 -/

theorem spec_offset_eq_drop (d i : List Nat) :
    spec_offset d i
      = (∑ k ∈ Finset.range (d.length - 1), i.getD k 0 * (d.drop (k + 1)).prod)
        + i.getD (d.length - 1) 0 := by
  unfold spec_offset
  congr 1
  apply Finset.sum_congr rfl
  intro k _
  rw [prod_Ico_getD_eq_drop d _ (k + 1) rfl]

theorem spec_offset_eq_row_major (d i : List Nat) (hlen : i.length = d.length)
    (h1 : 1 ≤ d.length) : spec_offset d i = row_major d i := by
  rw [spec_offset_eq_drop]
  induction d generalizing i with
  | nil => simp at h1
  | cons x ds ih =>
    cases i with
    | nil => simp at hlen
    | cons a is_ =>
      have hl : is_.length = ds.length := by simpa using hlen
      cases ds with
      | nil =>
        cases is_ with
        | nil => simp [row_major]
        | cons b r => simp at hl
      | cons y ds2 =>
        have h := ih is_ hl (by simp)
        simp only [List.length_cons, Nat.add_sub_cancel] at h ⊢
        rw [Finset.sum_range_succ', row_major, ← h]
        simp only [List.getD_cons_succ, List.drop_succ_cons, List.getD_cons_zero, List.drop_zero,
          Nat.zero_add]
        omega

theorem index_eq_spec_offset_mod {T : Type} (t : dynasor T) (idx : List Nat)
    (hlen : idx.length = t.number_of_dimensions) (h2 : 2 ≤ t.number_of_dimensions) :
    t.index idx = .ok (spec_offset t.number_of_elements_in_dimension_ idx % SIZE_MOD) := by
  unfold dynasor.number_of_dimensions at hlen h2
  have hu1 : usub t.number_of_elements_in_dimension_.length 1
      = t.number_of_elements_in_dimension_.length - 1 := by
    unfold usub; rw [if_pos (by omega)]
  unfold dynasor.index dynasor.number_of_dimensions
  rw [if_pos hlen]
  simp only
  rw [index_outer_eq _ idx hlen h2 _ 0 0 (by omega) (by omega) size_mod_pos, hu1]
  simp only
  have hlt : t.number_of_elements_in_dimension_.length - 1 < idx.length := by omega
  rw [List.getElem?_eq_getElem hlt]
  simp only
  rw [spec_offset_eq_drop, Nat.zero_add, Nat.mod_add_mod, Finset.range_eq_Ico]
  simp [List.getD_eq_getElem?_getD, List.getElem?_eq_getElem hlt]

/-! ## The row-major map on in-range multi-indices -/

theorem in_range_nil (i : List Nat) : in_range [] i ↔ i = [] := by
  unfold in_range
  simp

theorem in_range_cons (x a : Nat) (ds is_ : List Nat) :
    in_range (x :: ds) (a :: is_) ↔ a < x ∧ in_range ds is_ := by
  unfold in_range
  constructor
  · rintro ⟨hl, h⟩
    refine ⟨by simpa using h 0 (by simp), by simpa using hl, ?_⟩
    intro k hk
    simpa using h (k + 1) (by simpa using hk)
  · rintro ⟨ha, hl, h⟩
    refine ⟨by simpa using hl, ?_⟩
    intro k hk
    cases k with
    | zero => simpa using ha
    | succ k => simpa using h k (by simpa using hk)

theorem in_range_length (d i : List Nat) (h : in_range d i) : i.length = d.length := h.1

theorem row_major_lt (d i : List Nat) (h : in_range d i) : row_major d i < d.prod := by
  induction d generalizing i with
  | nil => simp [row_major]
  | cons x ds ih =>
    cases i with
    | nil => have := h.1; simp at this
    | cons a is_ =>
      rw [in_range_cons] at h
      have h1 := ih is_ h.2
      rw [row_major, List.prod_cons]
      have h2 : (a + 1) * ds.prod ≤ x * ds.prod := Nat.mul_le_mul_right _ h.1
      rw [Nat.add_mul, Nat.one_mul] at h2
      omega

theorem row_major_inj (d i j : List Nat) (hi : in_range d i) (hj : in_range d j)
    (h : row_major d i = row_major d j) : i = j := by
  induction d generalizing i j with
  | nil =>
    rw [in_range_nil] at hi hj
    rw [hi, hj]
  | cons x ds ih =>
    cases i with
    | nil => have := hi.1; simp at this
    | cons a is_ =>
      cases j with
      | nil => have := hj.1; simp at this
      | cons b js =>
        rw [in_range_cons] at hi hj
        have h1 := row_major_lt ds is_ hi.2
        have h2 := row_major_lt ds js hj.2
        simp only [row_major] at h
        have hpos : 0 < ds.prod := by omega
        have hab : a = b := by
          have e1 : (a * ds.prod + row_major ds is_) / ds.prod = a := by
            rw [Nat.mul_comm, Nat.mul_add_div hpos, Nat.div_eq_of_lt h1, Nat.add_zero]
          have e2 : (b * ds.prod + row_major ds js) / ds.prod = b := by
            rw [Nat.mul_comm, Nat.mul_add_div hpos, Nat.div_eq_of_lt h2, Nat.add_zero]
          rw [← e1, ← e2, h]
        subst hab
        have hr : row_major ds is_ = row_major ds js := by omega
        rw [ih is_ js hi.2 hj.2 hr]

theorem row_major_surj (d : List Nat) (k : Nat) (hk : k < d.prod) :
    ∃ i, in_range d i ∧ row_major d i = k := by
  induction d generalizing k with
  | nil =>
    refine ⟨[], (in_range_nil []).2 rfl, ?_⟩
    simp at hk
    simp [row_major, hk]
  | cons x ds ih =>
    rw [List.prod_cons] at hk
    have hpos : 0 < ds.prod := by
      rcases Nat.eq_zero_or_pos ds.prod with h0 | h0
      · rw [h0] at hk; simp at hk
      · exact h0
    obtain ⟨is_, hr, hv⟩ := ih (k % ds.prod) (Nat.mod_lt _ hpos)
    refine ⟨(k / ds.prod) :: is_, (in_range_cons _ _ _ _).2 ⟨?_, hr⟩, ?_⟩
    · rw [Nat.div_lt_iff_lt_mul hpos]
      exact hk
    · rw [row_major, hv]
      exact Nat.div_add_mod' k ds.prod

theorem row_major_set (d i : List Nat) (k : Nat) (hlen : i.length = d.length)
    (hk : k < d.length) :
    row_major d (i.set k (i.getD k 0 + 1)) = row_major d i + (d.drop (k + 1)).prod := by
  induction d generalizing i k with
  | nil => simp at hk
  | cons x ds ih =>
    cases i with
    | nil => simp at hlen
    | cons a is_ =>
      cases k with
      | zero =>
        simp only [List.set_cons_zero, List.getD_cons_zero, row_major, List.drop_succ_cons,
          List.drop_zero, Nat.zero_add]
        rw [Nat.add_mul, Nat.one_mul]
        omega
      | succ k =>
        simp only [List.set_cons_succ, List.getD_cons_succ, row_major, List.drop_succ_cons]
        rw [ih is_ k (by simpa using hlen) (by simpa using hk)]
        omega

/-! ## The constructors -/

theorem std_copy_replicate {α : Type} (expo : ExPo) (src : List α) (z : α) :
    std_copy expo src (List.replicate src.length z) = src := by
  unfold std_copy
  rw [List.drop_of_length_le (by simp)]
  simp

theorem foldl_mul_mod (xs : List Nat) (init : Nat) :
    (xs.foldl (fun acc x => (acc * x) % SIZE_MOD) init) % SIZE_MOD
      = (init * xs.prod) % SIZE_MOD := by
  induction xs generalizing init with
  | nil => simp
  | cons x xs ih =>
    rw [List.foldl_cons, ih, List.prod_cons, Nat.mod_mul_mod, Nat.mul_assoc]

theorem foldl_mul_lt (xs : List Nat) (init : Nat) (h : init < SIZE_MOD) :
    xs.foldl (fun acc x => (acc * x) % SIZE_MOD) init < SIZE_MOD := by
  induction xs generalizing init with
  | nil => simpa using h
  | cons x xs ih =>
    rw [List.foldl_cons]
    exact ih _ (Nat.mod_lt _ size_mod_pos)

theorem std_reduce_eq (expo : ExPo) (xs : List Nat) :
    std_reduce expo xs 1 = xs.prod % SIZE_MOD := by
  unfold std_reduce
  have h := foldl_mul_mod xs 1
  rw [Nat.mod_eq_of_lt (foldl_mul_lt xs 1 (by unfold SIZE_MOD; omega)), Nat.one_mul] at h
  exact h

theorem prod_map_to_size_t (d : List Nat) :
    (d.map to_size_t).prod % SIZE_MOD = d.prod % SIZE_MOD := by
  induction d with
  | nil => rfl
  | cons x xs ih =>
    rw [List.map_cons, List.prod_cons, List.prod_cons, Nat.mul_mod, ih, to_size_t, Nat.mod_mod,
      ← Nat.mul_mod]

theorem map_to_size_t_of_lt (d : List Nat) (h : ∀ x ∈ d, x < SIZE_MOD) :
    d.map to_size_t = d := by
  induction d with
  | nil => rfl
  | cons x xs ih =>
    rw [List.map_cons, ih (fun y hy => h y (List.mem_cons_of_mem _ hy)), to_size_t,
      Nat.mod_eq_of_lt (h x (List.mem_cons_self _ _))]

theorem vector_resize_nil {T : Type} (n : Nat) (v : T) :
    vector_resize [] n v = List.replicate n v := by
  simp [vector_resize]

theorem std_generate_length {σ T : Type} (g : σ → T × σ) (l : List T) (s : σ) :
    (std_generate g l s).1.length = l.length := by
  induction l generalizing s with
  | nil => rfl
  | cons x xs ih => simp [std_generate, ih]

theorem ctor_shape_dims {T : Type} [Zero T] (expo : ExPo) (d : List Nat) :
    (dynasor.ctor_shape expo d : dynasor T).number_of_elements_in_dimension_
      = d.map to_size_t := by
  have h := std_copy_replicate expo (d.map to_size_t) 0
  rw [List.length_map] at h
  simpa [dynasor.ctor_shape] using h

theorem ctor_fill_dims {T : Type} (expo : ExPo) (d : List Nat) (v : T) :
    (dynasor.ctor_fill expo d v).number_of_elements_in_dimension_ = d.map to_size_t := by
  have h := std_copy_replicate expo (d.map to_size_t) 0
  rw [List.length_map] at h
  simpa [dynasor.ctor_fill] using h

theorem ctor_shape_data {T : Type} [Zero T] (expo : ExPo) (d : List Nat) :
    (dynasor.ctor_shape expo d : dynasor T).data_
      = List.replicate (d.prod % SIZE_MOD) 0 := by
  have h := std_copy_replicate expo (d.map to_size_t) 0
  rw [List.length_map] at h
  simp only [dynasor.ctor_shape, h, std_reduce_eq, prod_map_to_size_t, vector_resize_nil]

theorem ctor_fill_data {T : Type} (expo : ExPo) (d : List Nat) (v : T) :
    (dynasor.ctor_fill expo d v).data_ = List.replicate (d.prod % SIZE_MOD) v := by
  have h := std_copy_replicate expo (d.map to_size_t) 0
  rw [List.length_map] at h
  simp only [dynasor.ctor_fill, h, std_reduce_eq, prod_map_to_size_t, vector_resize_nil]

theorem ctor_values_eq {T : Type} [Zero T] (expo : ExPo) (d : List Nat) (v : List T) :
    dynasor.ctor_values expo d v
      = { number_of_elements_in_dimension_ := d.map to_size_t, data_ := v } := by
  have h := std_copy_replicate expo (d.map to_size_t) 0
  rw [List.length_map] at h
  simp only [dynasor.ctor_values, h, std_copy_replicate]

theorem ctor_generate_dims {T σ : Type} [Zero T] (expo : ExPo) (d : List Nat)
    (g : σ → T × σ) (s : σ) :
    (dynasor.ctor_generate true expo d g s).1.number_of_elements_in_dimension_
      = d.map to_size_t := by
  have h := std_copy_replicate expo (d.map to_size_t) 0
  rw [List.length_map] at h
  simp [dynasor.ctor_generate, h]

theorem ctor_generate_length {T σ : Type} [Zero T] (expo : ExPo) (d : List Nat)
    (g : σ → T × σ) (s : σ) :
    (dynasor.ctor_generate true expo d g s).1.data_.length = d.prod % SIZE_MOD := by
  have h := std_copy_replicate expo (d.map to_size_t) 0
  rw [List.length_map] at h
  simp [dynasor.ctor_generate, h, std_generate_length, std_reduce_eq, prod_map_to_size_t,
    vector_resize_nil]

theorem length_is_product_of_mod {T : Type} (t : dynasor T)
    (h : t.data.length = t.number_of_elements_in_dimension_.prod % SIZE_MOD) :
    length_is_product t := by
  refine ⟨h, ?_⟩
  intro hp
  rw [h, Nat.mod_eq_of_lt hp]

/-! ## Ranks 0 and 1: the bound `nd - 2ULL` of the outer loop wraps around -/

theorem index_rank_one {T : Type} (t : dynasor T) (idx : List Nat)
    (h1 : t.number_of_dimensions = 1) (hlen : idx.length = 1) :
    t.index idx = .error .undefined_behaviour := by
  obtain ⟨dims, dat⟩ := t
  unfold dynasor.number_of_dimensions at h1
  simp only at h1
  match dims, idx, h1, hlen with
  | [x], [a], _, _ =>
    have hu2 : 1 ≤ usub 1 2 := by
      have := two_le_size_mod
      unfold usub
      rw [if_neg (by omega)]
      omega
    have hu1 : usub 1 1 = 0 := by simp [usub]
    simp [dynasor.index, dynasor.number_of_dimensions, dynasor.index_outer,
      dynasor.index_inner, hu1, hu2]

theorem index_rank_zero {T : Type} (t : dynasor T) (idx : List Nat)
    (h0 : t.number_of_dimensions = 0) (hlen : idx.length = 0) :
    t.index idx = .error .undefined_behaviour := by
  obtain ⟨dims, dat⟩ := t
  unfold dynasor.number_of_dimensions at h0
  simp only at h0
  match dims, idx, h0, hlen with
  | [], [], _, _ =>
    have hu1 : 1 ≤ usub 0 1 := by
      have := two_le_size_mod
      unfold usub
      rw [if_neg (by omega)]
      omega
    simp [dynasor.index, dynasor.number_of_dimensions, dynasor.index_outer,
      dynasor.index_inner, hu1]

/-! ## The step budget of `index` is enough -/

theorem index_budget_enough {T : Type} (t : dynasor T) (idx : List Nat) :
    t.index idx ≠ .error .out_of_steps := by
  by_cases hlen : idx.length = t.number_of_dimensions
  · have h : t.number_of_dimensions = 0 ∨ t.number_of_dimensions = 1
        ∨ 2 ≤ t.number_of_dimensions := by omega
    rcases h with h0 | h1 | h2
    · rw [index_rank_zero t idx h0 (by omega)]
      decide
    · rw [index_rank_one t idx h1 (by omega)]
      decide
    · rw [index_eq_spec_offset_mod t idx hlen h2]
      intro h
      cases h
  · unfold dynasor.index
    rw [if_neg hlen]
    decide

/-! ## In-range multi-indices of a tensor of rank at least 2 -/

theorem index_of_in_range {T : Type} (t : dynasor T) (idx : List Nat)
    (h2 : 2 ≤ t.number_of_dimensions)
    (hp : t.number_of_elements_in_dimension_.prod < SIZE_MOD)
    (hr : in_range t.number_of_elements_in_dimension_ idx) :
    t.index idx = .ok (row_major t.number_of_elements_in_dimension_ idx)
    ∧ row_major t.number_of_elements_in_dimension_ idx
        < t.number_of_elements_in_dimension_.prod := by
  have hlen : idx.length = t.number_of_dimensions := hr.1
  have hlt := row_major_lt _ _ hr
  have h1 : 1 ≤ t.number_of_elements_in_dimension_.length := by
    unfold dynasor.number_of_dimensions at h2
    omega
  refine ⟨?_, hlt⟩
  rw [index_eq_spec_offset_mod t idx hlen h2, spec_offset_eq_row_major _ _ hr.1 h1,
    Nat.mod_eq_of_lt (by omega)]

theorem data_at_replicate {T : Type} (dims : List Nat) (n k : Nat) (v : T) (hk : k < n) :
    dynasor.data_at { number_of_elements_in_dimension_ := dims, data_ := List.replicate n v } k
      = .ok v := by
  simp [dynasor.data_at, hk]

theorem element_of_replicate {T : Type} (t : dynasor T) (idx : List Nat) (n : Nat) (v : T)
    (hd : t.data_ = List.replicate n v)
    (h2 : 2 ≤ t.number_of_dimensions)
    (hp : t.number_of_elements_in_dimension_.prod < SIZE_MOD)
    (hn : n = t.number_of_elements_in_dimension_.prod)
    (hr : in_range t.number_of_elements_in_dimension_ idx) :
    ∃ k, t.index idx = .ok k ∧ k < t.data.length ∧ t.element idx = .ok v := by
  obtain ⟨hi, hlt⟩ := index_of_in_range t idx h2 hp hr
  refine ⟨_, hi, ?_, ?_⟩
  · rw [dynasor.data, hd, List.length_replicate, hn]
    exact hlt
  · obtain ⟨dims, dat⟩ := t
    simp only at hd
    subst hd
    rw [dynasor.element, hi]
    exact data_at_replicate dims n _ v (by rw [hn]; exact hlt)

/-! ## C1: the offset computed by `index` -/

/-- C1 (counterexample).  The claim fails for rank 1, where `index` reads the
multi-index out of bounds instead of returning `i[0]`, and it fails when the
exact offset does not fit in 64 bits: for shape `[2,3]` and multi-index
`(2^63, 0)` the exact offset is `3 * 2^63` and `index` returns `2^63`. -/
theorem index_spec_offset_counterexample :
    ((dynasor.ctor_shape .seq [4] : dynasor Int).index [2] = .error .undefined_behaviour
      ∧ (dynasor.ctor_shape .seq [4] : dynasor Int).index [2] ≠ .ok (spec_offset [4] [2]))
    ∧ ((dynasor.ctor_shape .seq [2, 3] : dynasor Int).index [2 ^ 63, 0] = .ok (2 ^ 63)
      ∧ (dynasor.ctor_shape .seq [2, 3] : dynasor Int).index [2 ^ 63, 0]
          ≠ .ok (spec_offset [2, 3] [2 ^ 63, 0])) := by
  decide

/-- C1 (amended).  For every tensor of rank `R ≥ 2` with extents `d` and every
multi-index `i` of length `R`, `index(i)` returns the row-major offset
`Σ_{k ≤ R-2} i[k] · Π_{m > k} d[m] + i[R-1]` reduced modulo `2^64`, hence the
exact offset whenever that is below `2^64`; for shape `[2,3]` and multi-index
`(1,2)` it returns 5. -/
theorem index_spec_offset {T : Type} (t : dynasor T) (idx : List Nat)
    (h2 : 2 ≤ t.number_of_dimensions) (hlen : idx.length = t.number_of_dimensions) :
    t.index idx = .ok (spec_offset t.number_of_elements_in_dimension_ idx % SIZE_MOD)
    ∧ (spec_offset t.number_of_elements_in_dimension_ idx < SIZE_MOD →
        t.index idx = .ok (spec_offset t.number_of_elements_in_dimension_ idx))
    ∧ (dynasor.ctor_shape .seq [2, 3] : dynasor Int).index [1, 2] = .ok 5 := by
  refine ⟨index_eq_spec_offset_mod t idx hlen h2, ?_, by decide⟩
  intro hlt
  rw [index_eq_spec_offset_mod t idx hlen h2, Nat.mod_eq_of_lt hlt]

/-- C1 (witness): shape `[2,3]`, multi-index `(1,2)`. -/
theorem index_spec_offset_witness :
    2 ≤ (dynasor.ctor_shape .seq [2, 3] : dynasor Int).number_of_dimensions
    ∧ [1, 2].length = (dynasor.ctor_shape .seq [2, 3] : dynasor Int).number_of_dimensions
    ∧ (dynasor.ctor_shape .seq [2, 3] : dynasor Int).index [1, 2]
        = .ok (spec_offset
            (dynasor.ctor_shape .seq [2, 3] : dynasor Int).number_of_elements_in_dimension_
            [1, 2] % SIZE_MOD) :=
  ⟨by decide, by decide,
    (index_spec_offset (dynasor.ctor_shape .seq [2, 3] : dynasor Int) [1, 2]
      (by decide) (by decide)).1⟩

/-! ## C2: storage length after construction -/

/-- C2 (counterexample).  The default constructor leaves storage empty although
the empty product is 1; the value-sequence constructor on shape `[2,3]` with
five values stores five elements; the shape-only constructor on shape
`[2^32, 2^32]` allocates no element although the product of the extents is `2^64`. -/
theorem data_length_counterexample :
    (dynasor.ctor_default : dynasor Int).data.length
        ≠ (dynasor.ctor_default : dynasor Int).number_of_elements_in_dimension_.prod
    ∧ (dynasor.ctor_values .seq [2, 3] [1, 2, 3, 4, 5] : dynasor Int).data.length
        ≠ (dynasor.ctor_values .seq [2, 3] [1, 2, 3, 4, 5] :
            dynasor Int).number_of_elements_in_dimension_.prod
    ∧ (dynasor.ctor_shape .seq [2 ^ 32, 2 ^ 32] : dynasor Int).data.length
        ≠ (dynasor.ctor_shape .seq [2 ^ 32, 2 ^ 32] :
            dynasor Int).number_of_elements_in_dimension_.prod := by
  decide

/-- C2 (amended).  For the shape-only, shape + fill value and generator
constructors (the generator being invocable) and for the `zeros` and `ones`
factories, the length of `data()` is the product of the extents of the shape
reduced modulo `2^64` (the empty product being 1), hence the product itself
whenever that is below `2^64`.  The default constructor yields rank 0 and empty
storage, the value-sequence constructor yields storage as long as the value
sequence, and the generator constructor with a callable that is not invocable
yields empty storage. -/
theorem data_length {T σ : Type} [Zero T] [One T] (expo : ExPo) (d : List Nat) (v : T)
    (vs : List T) (g : σ → T × σ) (s : σ) :
    (length_is_product (dynasor.ctor_shape expo d : dynasor T)
      ∧ length_is_product (dynasor.ctor_fill expo d v)
      ∧ length_is_product (dynasor.ctor_generate true expo d g s).1
      ∧ length_is_product (dynasor.zeros expo d : dynasor T)
      ∧ length_is_product (dynasor.ones expo d : dynasor T))
    ∧ ((dynasor.ctor_default : dynasor T).number_of_dimensions = 0
      ∧ (dynasor.ctor_default : dynasor T).data.length = 0)
    ∧ (dynasor.ctor_values expo d vs).data.length = vs.length
    ∧ (dynasor.ctor_generate false expo d g s).1.data.length = 0 := by
  have hfill : ∀ w : T, length_is_product (dynasor.ctor_fill expo d w) := by
    intro w
    apply length_is_product_of_mod
    rw [ctor_fill_dims, prod_map_to_size_t, dynasor.data, ctor_fill_data, List.length_replicate]
  refine ⟨⟨?_, hfill v, ?_, hfill 0, hfill 1⟩, ⟨rfl, rfl⟩, ?_, ?_⟩
  · apply length_is_product_of_mod
    rw [ctor_shape_dims, prod_map_to_size_t, dynasor.data, ctor_shape_data, List.length_replicate]
  · apply length_is_product_of_mod
    rw [ctor_generate_dims, prod_map_to_size_t, dynasor.data, ctor_generate_length]
  · rw [ctor_values_eq, dynasor.data]
  · simp [dynasor.ctor_generate, dynasor.data]

/-- C2 (witness): shape `[2,3]` with integer elements, fill value 7 and a
generator counting up from its state. -/
theorem data_length_witness :
    (dynasor.ctor_shape .seq [2, 3] : dynasor Int).number_of_elements_in_dimension_.prod
        < SIZE_MOD
    ∧ (dynasor.ctor_shape .seq [2, 3] : dynasor Int).data.length
        = (dynasor.ctor_shape .seq [2, 3] : dynasor Int).number_of_elements_in_dimension_.prod
    ∧ (dynasor.ctor_generate true .par [2, 3] (fun n : Int => (n, n + 1)) 0).1.data.length
        = (dynasor.ctor_generate true .par [2, 3] (fun n : Int => (n, n + 1))
            0).1.number_of_elements_in_dimension_.prod % SIZE_MOD :=
  ⟨by decide,
    (data_length .seq [2, 3] (7 : Int) [] (fun n : Int => (n, n + 1)) 0).1.1.2 (by decide),
    (data_length .par [2, 3] (7 : Int) [] (fun n : Int => (n, n + 1)) 0).1.2.2.1.1⟩

/-! ## C3: the value-sequence constructor and mismatched lengths -/

/-- C3 (counterexample).  Shape `[2,3]` with a sequence of five values is not
rejected: the constructor returns a tensor with that shape and those five values. -/
theorem construct_values_counterexample :
    (dynasor.construct_values .seq [2, 3] [10, 11, 12, 20, 21] : Except Err (dynasor Int))
        ≠ .error .shape_storage_mismatch
    ∧ (dynasor.construct_values .seq [2, 3] [10, 11, 12, 20, 21] : Except Err (dynasor Int))
        = .ok { number_of_elements_in_dimension_ := [2, 3],
                data_ := [10, 11, 12, 20, 21] } := by
  decide

/-- C3 (amended).  For every shape `d` and every value sequence `v` whose length
differs from the product of the extents of `d`, the value-sequence constructor
does not fail: it returns a tensor whose shape is `d` (as `size_t` values) and
whose storage is `v`, so that the storage length differs from the product. -/
theorem construct_values_mismatch {T : Type} [Zero T] (expo : ExPo) (d : List Nat)
    (v : List T) (h : v.length ≠ d.prod) :
    dynasor.construct_values expo d v
        = .ok { number_of_elements_in_dimension_ := d.map to_size_t, data_ := v }
    ∧ (dynasor.ctor_values expo d v).data.length ≠ d.prod := by
  refine ⟨?_, ?_⟩
  · rw [dynasor.construct_values, ctor_values_eq]
  · rw [ctor_values_eq, dynasor.data]
    exact h

/-- C3 (witness): shape `[2,3]` with five values. -/
theorem construct_values_mismatch_witness :
    ([10, 11, 12, 20, 21] : List Int).length ≠ [2, 3].prod
    ∧ (dynasor.construct_values .seq [2, 3] ([10, 11, 12, 20, 21] : List Int)
        = .ok { number_of_elements_in_dimension_ := [2, 3].map to_size_t,
                data_ := [10, 11, 12, 20, 21] }
      ∧ (dynasor.ctor_values .seq [2, 3] ([10, 11, 12, 20, 21] : List Int)).data.length
        ≠ [2, 3].prod) :=
  ⟨by decide, construct_values_mismatch .seq [2, 3] [10, 11, 12, 20, 21] (by decide)⟩

/-! ## C4: rank mismatch -/

/-- C4.  For every tensor of rank `R` and every multi-index whose length differs
from `R`, `index`, both `element` accessors and both call operators fail with
the rank-mismatch error, and the tensor is left as it was. -/
theorem wrong_length_throws {T : Type} (t : dynasor T) (idx : List Nat) (x : T)
    (h : idx.length ≠ t.number_of_dimensions) :
    t.index idx = .error .rank_mismatch
    ∧ t.element idx = .error .rank_mismatch
    ∧ t.call idx = .error .rank_mismatch
    ∧ t.element_assign idx x = (.error .rank_mismatch, t)
    ∧ t.call_assign idx x = (.error .rank_mismatch, t) := by
  have hi : t.index idx = .error .rank_mismatch := by
    unfold dynasor.index
    rw [if_neg h]
  refine ⟨hi, ?_, ?_, ?_, ?_⟩
  · simp [dynasor.element, hi]
  · simp [dynasor.call, hi]
  · simp [dynasor.element_assign, hi]
  · simp [dynasor.call_assign, hi]

/-- C4 (witness): shape `[2,2]` with a 3-element multi-index. -/
theorem wrong_length_throws_witness :
    [0, 0, 0].length ≠ (dynasor.ctor_shape .seq [2, 2] : dynasor Int).number_of_dimensions
    ∧ ((dynasor.ctor_shape .seq [2, 2] : dynasor Int).index [0, 0, 0] = .error .rank_mismatch
      ∧ (dynasor.ctor_shape .seq [2, 2] : dynasor Int).element [0, 0, 0]
          = .error .rank_mismatch
      ∧ (dynasor.ctor_shape .seq [2, 2] : dynasor Int).call [0, 0, 0] = .error .rank_mismatch
      ∧ (dynasor.ctor_shape .seq [2, 2] : dynasor Int).element_assign [0, 0, 0] 9
          = (.error .rank_mismatch, dynasor.ctor_shape .seq [2, 2])
      ∧ (dynasor.ctor_shape .seq [2, 2] : dynasor Int).call_assign [0, 0, 0] 9
          = (.error .rank_mismatch, dynasor.ctor_shape .seq [2, 2])) :=
  ⟨by decide, wrong_length_throws (dynasor.ctor_shape .seq [2, 2]) [0, 0, 0] 9 (by decide)⟩

/-! ## C5: access with a multi-index of the right length -/

/-- C5 (the code at the failing inputs).  For the rank-1 tensor of shape `[4]`
and the in-range multi-index `(2)`, `index`, `element` and the call operator
read the multi-index out of bounds instead of returning offset 2 and the
stored element; for a rank-0 tensor and the empty multi-index `index` reads
the extents out of bounds. -/
theorem index_low_rank_undefined :
    in_range (dynasor.ctor_shape .seq [4] : dynasor Int).number_of_elements_in_dimension_ [2]
    ∧ (dynasor.ctor_shape .seq [4] : dynasor Int).index [2] = .error .undefined_behaviour
    ∧ (dynasor.ctor_shape .seq [4] : dynasor Int).element [2] = .error .undefined_behaviour
    ∧ (dynasor.ctor_shape .seq [4] : dynasor Int).call [2] = .error .undefined_behaviour
    ∧ (dynasor.ctor_shape .seq [] : dynasor Int).index [] = .error .undefined_behaviour
    ∧ (dynasor.ctor_shape .seq [] : dynasor Int).element [] = .error .undefined_behaviour := by
  decide

/-! ## C6: the offset of an in-range multi-index is inside storage -/

/-- C6 (counterexample).  For shape `[4]` the in-range multi-index `(2)` makes
`index` read out of bounds, so no offset is returned; for shape `[2^32, 2^32]`
the storage is empty and the in-range multi-index `(0,0)` has offset 0, which
is not below the storage length. -/
theorem index_bound_counterexample :
    (in_range (dynasor.ctor_shape .seq [4] : dynasor Int).number_of_elements_in_dimension_ [2]
      ∧ (dynasor.ctor_shape .seq [4] : dynasor Int).index [2] = .error .undefined_behaviour)
    ∧ (in_range
          (dynasor.ctor_shape .seq [2 ^ 32, 2 ^ 32] : dynasor Int).number_of_elements_in_dimension_
          [0, 0]
      ∧ (dynasor.ctor_shape .seq [2 ^ 32, 2 ^ 32] : dynasor Int).index [0, 0] = .ok 0
      ∧ ¬ 0 < (dynasor.ctor_shape .seq [2 ^ 32, 2 ^ 32] : dynasor Int).data.length) := by
  decide

/-- C6 (amended).  For every tensor built by the shape-only or the shape + fill
value constructor from a shape `d` of rank at least 2 whose extents are
`size_t` values with exact product below `2^64`, and for every in-range
multi-index `i`, `index(i)` returns an offset strictly below the length of
`data()`, and `element(i)` returns the stored element (zero, respectively the
fill value). -/
theorem index_bound {T : Type} [Zero T] (expo : ExPo) (d : List Nat) (v : T) (idx : List Nat)
    (h2 : 2 ≤ d.length) (hd : ∀ x ∈ d, x < SIZE_MOD) (hp : d.prod < SIZE_MOD)
    (hr : in_range d idx) :
    (∃ k, (dynasor.ctor_shape expo d : dynasor T).index idx = .ok k
        ∧ k < (dynasor.ctor_shape expo d : dynasor T).data.length
        ∧ (dynasor.ctor_shape expo d : dynasor T).element idx = .ok 0)
    ∧ (∃ k, (dynasor.ctor_fill expo d v).index idx = .ok k
        ∧ k < (dynasor.ctor_fill expo d v).data.length
        ∧ (dynasor.ctor_fill expo d v).element idx = .ok v) := by
  have hm := map_to_size_t_of_lt d hd
  constructor
  · have hdims : (dynasor.ctor_shape expo d : dynasor T).number_of_elements_in_dimension_ = d := by
      rw [ctor_shape_dims, hm]
    apply element_of_replicate _ idx (d.prod % SIZE_MOD) 0 (ctor_shape_data expo d)
    · rw [dynasor.number_of_dimensions, hdims]; exact h2
    · rw [hdims]; exact hp
    · rw [hdims, Nat.mod_eq_of_lt hp]
    · rw [hdims]; exact hr
  · have hdims : (dynasor.ctor_fill expo d v).number_of_elements_in_dimension_ = d := by
      rw [ctor_fill_dims, hm]
    apply element_of_replicate _ idx (d.prod % SIZE_MOD) v (ctor_fill_data expo d v)
    · rw [dynasor.number_of_dimensions, hdims]; exact h2
    · rw [hdims]; exact hp
    · rw [hdims, Nat.mod_eq_of_lt hp]
    · rw [hdims]; exact hr

/-- C6 (witness): shape `[2,3]`, fill value 7, multi-index `(1,2)`. -/
theorem index_bound_witness :
    (2 ≤ [2, 3].length ∧ (∀ x ∈ [2, 3], x < SIZE_MOD) ∧ [2, 3].prod < SIZE_MOD
      ∧ in_range [2, 3] [1, 2])
    ∧ ((∃ k, (dynasor.ctor_shape .seq [2, 3] : dynasor Int).index [1, 2] = .ok k
        ∧ k < (dynasor.ctor_shape .seq [2, 3] : dynasor Int).data.length
        ∧ (dynasor.ctor_shape .seq [2, 3] : dynasor Int).element [1, 2] = .ok 0)
      ∧ (∃ k, (dynasor.ctor_fill .seq [2, 3] (7 : Int)).index [1, 2] = .ok k
        ∧ k < (dynasor.ctor_fill .seq [2, 3] (7 : Int)).data.length
        ∧ (dynasor.ctor_fill .seq [2, 3] (7 : Int)).element [1, 2] = .ok 7)) :=
  ⟨⟨by decide, by decide, by decide, by decide⟩,
    index_bound .seq [2, 3] (7 : Int) [1, 2] (by decide) (by decide) (by decide) (by decide)⟩

/-! ## C7: distinct in-range multi-indices have distinct offsets -/

/-- C7 (counterexample).  For shape `[2, 2^63, 2]` the distinct in-range
multi-indices `(0,0,0)` and `(1,0,0)` both have offset 0; for shape `[4]` the
distinct in-range multi-indices `(1)` and `(2)` yield no offset at all, `index`
reading out of bounds for both. -/
theorem index_injective_counterexample :
    (in_range
        (dynasor.ctor_shape .seq [2, 2 ^ 63, 2] : dynasor Int).number_of_elements_in_dimension_
        [0, 0, 0]
      ∧ in_range
        (dynasor.ctor_shape .seq [2, 2 ^ 63, 2] : dynasor Int).number_of_elements_in_dimension_
        [1, 0, 0]
      ∧ ([0, 0, 0] : List Nat) ≠ [1, 0, 0]
      ∧ (dynasor.ctor_shape .seq [2, 2 ^ 63, 2] : dynasor Int).index [0, 0, 0]
        = (dynasor.ctor_shape .seq [2, 2 ^ 63, 2] : dynasor Int).index [1, 0, 0])
    ∧ (in_range (dynasor.ctor_shape .seq [4] : dynasor Int).number_of_elements_in_dimension_ [1]
      ∧ in_range (dynasor.ctor_shape .seq [4] : dynasor Int).number_of_elements_in_dimension_ [2]
      ∧ ([1] : List Nat) ≠ [2]
      ∧ (dynasor.ctor_shape .seq [4] : dynasor Int).index [1]
        = (dynasor.ctor_shape .seq [4] : dynasor Int).index [2]) := by
  decide

/-- C7 (amended).  For every tensor of rank at least 2 whose exact product of
extents is below `2^64` and whose storage length equals that product: two
distinct in-range multi-indices have distinct offsets, every in-range
multi-index has an offset below the length of `data()`, and every position
below the length of `data()` is the offset of an in-range multi-index; the map
from in-range multi-indices to offsets is a bijection onto `[0, len(data))`. -/
theorem index_bijective {T : Type} (t : dynasor T)
    (h2 : 2 ≤ t.number_of_dimensions)
    (hp : t.number_of_elements_in_dimension_.prod < SIZE_MOD)
    (hdata : t.data.length = t.number_of_elements_in_dimension_.prod) :
    (∀ i j, in_range t.number_of_elements_in_dimension_ i →
        in_range t.number_of_elements_in_dimension_ j → i ≠ j → t.index i ≠ t.index j)
    ∧ (∀ i, in_range t.number_of_elements_in_dimension_ i →
        ∃ k, t.index i = .ok k ∧ k < t.data.length)
    ∧ (∀ k, k < t.data.length →
        ∃ i, in_range t.number_of_elements_in_dimension_ i ∧ t.index i = .ok k) := by
  refine ⟨?_, ?_, ?_⟩
  · intro i j hi hj hne heq
    rw [(index_of_in_range t i h2 hp hi).1, (index_of_in_range t j h2 hp hj).1] at heq
    exact hne (row_major_inj _ i j hi hj (Except.ok.inj heq))
  · intro i hi
    obtain ⟨h, hlt⟩ := index_of_in_range t i h2 hp hi
    exact ⟨_, h, by rw [hdata]; exact hlt⟩
  · intro k hk
    rw [hdata] at hk
    obtain ⟨i, hi, hv⟩ := row_major_surj _ k hk
    refine ⟨i, hi, ?_⟩
    rw [(index_of_in_range t i h2 hp hi).1, hv]

/-- C7 (witness): the tensor of shape `[2,3]` built by the shape-only constructor. -/
theorem index_bijective_witness :
    (2 ≤ (dynasor.ctor_shape .seq [2, 3] : dynasor Int).number_of_dimensions
      ∧ (dynasor.ctor_shape .seq [2, 3] : dynasor Int).number_of_elements_in_dimension_.prod
          < SIZE_MOD
      ∧ (dynasor.ctor_shape .seq [2, 3] : dynasor Int).data.length
          = (dynasor.ctor_shape .seq [2, 3] : dynasor Int).number_of_elements_in_dimension_.prod)
    ∧ (dynasor.ctor_shape .seq [2, 3] : dynasor Int).index [0, 2]
        ≠ (dynasor.ctor_shape .seq [2, 3] : dynasor Int).index [1, 0] :=
  ⟨⟨by decide, by decide, by decide⟩,
    (index_bijective (dynasor.ctor_shape .seq [2, 3] : dynasor Int)
      (by decide) (by decide) (by decide)).1 [0, 2] [1, 0] (by decide) (by decide) (by decide)⟩

/-! ## C8: incrementing one coordinate -/

/-- C8 (counterexample).  For shape `[4]` neither `(1)` nor `(2)` has an offset,
`index` reading out of bounds for both; for shape `[2,3]` and multi-index
`(6148914691236517205, 0)` the offset is `2^64 - 1` and incrementing coordinate
0 gives offset 2, not `2^64 - 1 + 3`. -/
theorem index_increment_counterexample :
    ((dynasor.ctor_shape .seq [4] : dynasor Int).index [1] = .error .undefined_behaviour
      ∧ (dynasor.ctor_shape .seq [4] : dynasor Int).index ([1].set 0 ([1].getD 0 0 + 1))
          = .error .undefined_behaviour)
    ∧ ((dynasor.ctor_shape .seq [2, 3] : dynasor Int).index [6148914691236517205, 0]
          = .ok (2 ^ 64 - 1)
      ∧ (dynasor.ctor_shape .seq [2, 3] : dynasor Int).index
          ([6148914691236517205, 0].set 0 ([6148914691236517205, 0].getD 0 0 + 1)) = .ok 2
      ∧ (2 : Nat) ≠ (2 ^ 64 - 1) + ∏ m ∈ Finset.Ico (0 + 1) 2, [2, 3].getD m 0) := by
  decide

/-- C8 (amended).  For every tensor of rank `R ≥ 2` with extents `d`, every
multi-index `i` of length `R` and every axis `k < R`, `index(i)` returns an
offset `v` and `index(i with i[k] replaced by i[k]+1)` returns
`v + Π_{m=k+1}^{R-1} d[m]` reduced modulo `2^64`; in particular incrementing
only the last coordinate gives `v + 1` reduced modulo `2^64`. -/
theorem index_increment {T : Type} (t : dynasor T) (idx : List Nat) (k : Nat)
    (h2 : 2 ≤ t.number_of_dimensions) (hlen : idx.length = t.number_of_dimensions)
    (hk : k < t.number_of_dimensions) :
    ∃ v, t.index idx = .ok v
      ∧ t.index (idx.set k (idx.getD k 0 + 1))
          = .ok ((v + ∏ m ∈ Finset.Ico (k + 1) t.number_of_dimensions,
                    t.number_of_elements_in_dimension_.getD m 0) % SIZE_MOD)
      ∧ (k = t.number_of_dimensions - 1 →
          t.index (idx.set k (idx.getD k 0 + 1)) = .ok ((v + 1) % SIZE_MOD)) := by
  have hlen2 : (idx.set k (idx.getD k 0 + 1)).length = t.number_of_dimensions := by
    rw [List.length_set]; exact hlen
  have h1 : 1 ≤ t.number_of_elements_in_dimension_.length := by
    unfold dynasor.number_of_dimensions at h2
    omega
  have hstep : t.index (idx.set k (idx.getD k 0 + 1))
      = .ok ((spec_offset t.number_of_elements_in_dimension_ idx % SIZE_MOD
          + (t.number_of_elements_in_dimension_.drop (k + 1)).prod) % SIZE_MOD) := by
    rw [index_eq_spec_offset_mod t _ hlen2 h2, spec_offset_eq_row_major _ _ hlen2 h1,
      row_major_set _ idx k hlen hk, spec_offset_eq_row_major _ _ hlen h1, Nat.mod_add_mod]
  refine ⟨_, index_eq_spec_offset_mod t idx hlen h2, ?_, ?_⟩
  · rw [hstep, dynasor.number_of_dimensions, prod_Ico_getD_eq_drop _ _ (k + 1) rfl]
  · intro hlast
    rw [hstep, List.drop_of_length_le (by unfold dynasor.number_of_dimensions at hlast; omega)]
    rfl

/-- C8 (witness): shape `[2,3]`, multi-index `(0,1)`, axis 0. -/
theorem index_increment_witness :
    (2 ≤ (dynasor.ctor_shape .seq [2, 3] : dynasor Int).number_of_dimensions
      ∧ [0, 1].length = (dynasor.ctor_shape .seq [2, 3] : dynasor Int).number_of_dimensions
      ∧ 0 < (dynasor.ctor_shape .seq [2, 3] : dynasor Int).number_of_dimensions)
    ∧ ∃ v, (dynasor.ctor_shape .seq [2, 3] : dynasor Int).index [0, 1] = .ok v
      ∧ (dynasor.ctor_shape .seq [2, 3] : dynasor Int).index ([0, 1].set 0 ([0, 1].getD 0 0 + 1))
          = .ok ((v + ∏ m ∈ Finset.Ico (0 + 1)
                    (dynasor.ctor_shape .seq [2, 3] : dynasor Int).number_of_dimensions,
                    (dynasor.ctor_shape .seq [2, 3] :
                      dynasor Int).number_of_elements_in_dimension_.getD m 0) % SIZE_MOD)
      ∧ (0 = (dynasor.ctor_shape .seq [2, 3] : dynasor Int).number_of_dimensions - 1 →
          (dynasor.ctor_shape .seq [2, 3] : dynasor Int).index
              ([0, 1].set 0 ([0, 1].getD 0 0 + 1)) = .ok ((v + 1) % SIZE_MOD)) :=
  ⟨⟨by decide, by decide, by decide⟩,
    index_increment (dynasor.ctor_shape .seq [2, 3] : dynasor Int) [0, 1] 0
      (by decide) (by decide) (by decide)⟩

/-! ## C9: round trip through the value-sequence constructor -/

/-- C9.  For every shape `d` and every value sequence `v`, the tensor built by
the value-sequence constructor has `data()` equal to `v`, element by element
and in the same order, and its rank is the length of `d`; for shape `[2,3]`
and `v = [10,11,12,20,21,22]`, `data()` is `[10,11,12,20,21,22]`. -/
theorem ctor_values_round_trip {T : Type} [Zero T] (expo : ExPo) (d : List Nat) (v : List T) :
    (dynasor.ctor_values expo d v).data = v
    ∧ (∀ k : Nat, (dynasor.ctor_values expo d v).data[k]? = v[k]?)
    ∧ (dynasor.ctor_values expo d v).number_of_dimensions = d.length
    ∧ (dynasor.ctor_values .seq [2, 3] ([10, 11, 12, 20, 21, 22] : List Int)).data
        = [10, 11, 12, 20, 21, 22] := by
  have h : (dynasor.ctor_values expo d v).data = v := by
    rw [ctor_values_eq, dynasor.data]
  refine ⟨h, ?_, ?_, by decide⟩
  · intro k
    rw [h]
  · rw [ctor_values_eq, dynasor.number_of_dimensions]
    simp

/-! ## C10: the shape-only constructor -/

/-- C10 (counterexample).  For shape `[2^32, 2^32]` the shape-only constructor
allocates no element, whereas the product of the extents is `2^64`. -/
theorem ctor_shape_length_counterexample :
    (dynasor.ctor_shape .seq [2 ^ 32, 2 ^ 32] : dynasor Int).data.length = 0
    ∧ (dynasor.ctor_shape .seq [2 ^ 32, 2 ^ 32] : dynasor Int).data.length
        ≠ [2 ^ 32, 2 ^ 32].prod := by
  decide

/-- C10 (amended).  For every shape sequence `d`, the shape-only constructor
yields a tensor whose `number_of_dimensions()` is the length of `d`, whose
`data()` has length equal to the product of the extents of `d` reduced modulo
`2^64` (hence the product itself whenever that is below `2^64`), and whose
every element is zero; for shape `[2,3,1,5]`: rank 4, 30 elements, all 0. -/
theorem ctor_shape_zero {T : Type} [Zero T] (expo : ExPo) (d : List Nat) :
    (dynasor.ctor_shape expo d : dynasor T).number_of_dimensions = d.length
    ∧ (dynasor.ctor_shape expo d : dynasor T).data.length = d.prod % SIZE_MOD
    ∧ (d.prod < SIZE_MOD → (dynasor.ctor_shape expo d : dynasor T).data.length = d.prod)
    ∧ (∀ x ∈ (dynasor.ctor_shape expo d : dynasor T).data, x = 0)
    ∧ ((dynasor.ctor_shape .seq [2, 3, 1, 5] : dynasor T).number_of_dimensions = 4
      ∧ (dynasor.ctor_shape .seq [2, 3, 1, 5] : dynasor T).data = List.replicate 30 0) := by
  have hlen : (dynasor.ctor_shape expo d : dynasor T).data.length = d.prod % SIZE_MOD := by
    rw [dynasor.data, ctor_shape_data, List.length_replicate]
  refine ⟨?_, hlen, ?_, ?_, ?_, ?_⟩
  · rw [dynasor.number_of_dimensions, ctor_shape_dims, List.length_map]
  · intro hp
    rw [hlen, Nat.mod_eq_of_lt hp]
  · intro x hx
    rw [dynasor.data, ctor_shape_data] at hx
    exact List.eq_of_mem_replicate hx
  · rw [dynasor.number_of_dimensions, ctor_shape_dims]
    rfl
  · rw [dynasor.data, ctor_shape_data]
    have h30 : [2, 3, 1, 5].prod % SIZE_MOD = 30 := by decide
    rw [h30]

/-- C10 (witness): shape `[2,3,1,5]` with integer elements. -/
theorem ctor_shape_zero_witness :
    [2, 3, 1, 5].prod < SIZE_MOD
    ∧ (dynasor.ctor_shape .seq [2, 3, 1, 5] : dynasor Int).number_of_dimensions = 4
    ∧ (dynasor.ctor_shape .seq [2, 3, 1, 5] : dynasor Int).data.length = [2, 3, 1, 5].prod
    ∧ (∀ x ∈ (dynasor.ctor_shape .seq [2, 3, 1, 5] : dynasor Int).data, x = 0) :=
  ⟨by decide,
    (ctor_shape_zero .seq [2, 3, 1, 5]).1,
    (ctor_shape_zero .seq [2, 3, 1, 5]).2.2.1 (by decide),
    (ctor_shape_zero .seq [2, 3, 1, 5]).2.2.2.1⟩

/-! ## Stateful generators -/

theorem invocation_state_shift {σ T : Type} (g : σ → T × σ) (s : σ) (k : Nat) :
    invocation_state g s (k + 1) = invocation_state g (g s).2 k := by
  induction k with
  | zero => rfl
  | succ k ih =>
    rw [invocation_state, ih]
    rfl

theorem invocation_result_shift {σ T : Type} (g : σ → T × σ) (s : σ) (k : Nat) :
    invocation_result g s (k + 1) = invocation_result g (g s).2 k := by
  unfold invocation_result
  rw [invocation_state_shift]

theorem std_generate_eq {σ T : Type} (g : σ → T × σ) (l : List T) (s : σ) :
    std_generate g l s
      = ((List.range l.length).map (invocation_result g s), invocation_state g s l.length) := by
  induction l generalizing s with
  | nil => rfl
  | cons x xs ih =>
    rw [std_generate, ih, List.length_cons, List.range_succ_eq_map, List.map_cons, List.map_map,
      invocation_state_shift]
    congr 2
    apply List.map_congr_left
    intro k _
    exact (invocation_result_shift g s k).symm

theorem std_generate_all {σ T : Type} (g : σ → T × σ) (P : T → Prop) (hP : ∀ s, P (g s).1)
    (l : List T) (s : σ) : ∀ x ∈ (std_generate g l s).1, P x := by
  rw [std_generate_eq]
  intro x hx
  simp only [List.mem_map] at hx
  obtain ⟨k, _, rfl⟩ := hx
  exact hP _

theorem counting_state {σ T : Type} (g : σ → T × σ) (s : σ) (c k : Nat) :
    invocation_state (counting g) (s, c) k = (invocation_state g s k, c + k) := by
  induction k with
  | zero => rfl
  | succ k ih =>
    rw [invocation_state, ih]
    rfl

theorem ctor_generate_eq {T σ : Type} [Zero T] (expo : ExPo) (d : List Nat)
    (g : σ → T × σ) (s : σ) :
    dynasor.ctor_generate true expo d g s
      = ({ number_of_elements_in_dimension_ := d.map to_size_t,
           data_ := (List.range (d.prod % SIZE_MOD)).map (invocation_result g s) },
         invocation_state g s (d.prod % SIZE_MOD)) := by
  have h := std_copy_replicate expo (d.map to_size_t) 0
  rw [List.length_map] at h
  simp only [dynasor.ctor_generate, h, if_true, std_reduce_eq, prod_map_to_size_t,
    vector_resize_nil, std_generate_eq, List.length_replicate]

/-! ## C11: the fill-value constructor and the `zeros` / `ones` factories -/

/-- C11 (counterexample).  For shape `[2^32, 2^32]` and fill value 7 the
constructor allocates no element, whereas the product of the extents is `2^64`. -/
theorem ctor_fill_length_counterexample :
    (dynasor.ctor_fill .seq [2 ^ 32, 2 ^ 32] (7 : Int)).data.length = 0
    ∧ (dynasor.ctor_fill .seq [2 ^ 32, 2 ^ 32] (7 : Int)).data.length
        ≠ [2 ^ 32, 2 ^ 32].prod := by
  decide

/-- C11 (amended).  For every shape `d` and fill value `v`, the shape + fill
value constructor yields storage whose length is the product of the extents
reduced modulo `2^64` (hence the product itself whenever that is below `2^64`)
and in which every element equals `v`; `zeros(d)` has every element 0 and
`ones(d)` has every element 1; shape `[2,3]` with fill 7 gives `[7,7,7,7,7,7]`. -/
theorem ctor_fill_all {T : Type} [Zero T] [One T] (expo : ExPo) (d : List Nat) (v : T) :
    (dynasor.ctor_fill expo d v).data.length = d.prod % SIZE_MOD
    ∧ (d.prod < SIZE_MOD → (dynasor.ctor_fill expo d v).data.length = d.prod)
    ∧ (∀ x ∈ (dynasor.ctor_fill expo d v).data, x = v)
    ∧ (∀ x ∈ (dynasor.zeros expo d : dynasor T).data, x = 0)
    ∧ (∀ x ∈ (dynasor.ones expo d : dynasor T).data, x = 1)
    ∧ (dynasor.ctor_fill .seq [2, 3] (7 : Int)).data = [7, 7, 7, 7, 7, 7] := by
  have hlen : (dynasor.ctor_fill expo d v).data.length = d.prod % SIZE_MOD := by
    rw [dynasor.data, ctor_fill_data, List.length_replicate]
  have hall : ∀ w : T, ∀ x ∈ (dynasor.ctor_fill expo d w).data, x = w := by
    intro w x hx
    rw [dynasor.data, ctor_fill_data] at hx
    exact List.eq_of_mem_replicate hx
  refine ⟨hlen, ?_, hall v, hall 0, hall 1, by decide⟩
  intro hp
  rw [hlen, Nat.mod_eq_of_lt hp]

/-- C11 (witness): shape `[2,3]` with fill value 7. -/
theorem ctor_fill_all_witness :
    [2, 3].prod < SIZE_MOD
    ∧ (dynasor.ctor_fill .seq [2, 3] (7 : Int)).data.length = [2, 3].prod
    ∧ (∀ x ∈ (dynasor.ctor_fill .seq [2, 3] (7 : Int)).data, x = 7) :=
  ⟨by decide, (ctor_fill_all .seq [2, 3] (7 : Int)).2.1 (by decide),
    (ctor_fill_all .seq [2, 3] (7 : Int)).2.2.1⟩

/-! ## C12: the generator constructor -/

/-- C12 (counterexample).  For shape `[2^32, 2^32]`, whose extent product is
`2^64`, the generator constructor does not invoke the generator at all: the
invocation counter is still 0 and the storage is empty. -/
theorem ctor_generate_counterexample :
    (dynasor.ctor_generate true .seq [2 ^ 32, 2 ^ 32]
        (counting (fun n : Int => (n, n + 1))) (0, 0)).2.2 = 0
    ∧ (dynasor.ctor_generate true .seq [2 ^ 32, 2 ^ 32]
        (counting (fun n : Int => (n, n + 1))) (0, 0)).2.2 ≠ [2 ^ 32, 2 ^ 32].prod
    ∧ (dynasor.ctor_generate true .seq [2 ^ 32, 2 ^ 32]
        (counting (fun n : Int => (n, n + 1))) (0, 0)).1.data = [] := by
  decide

/-- C12 (amended).  For every shape `d`, with `n` the extent product reduced
modulo `2^64` (the product itself whenever that is below `2^64`), and every
stateful nullary generator `g`, the generator constructor invokes `g` exactly
`n` times and stores the result of the `k`-th invocation (counting from 0) at
storage offset `k`, for every `k < n`, whatever execution-policy hint is
passed. -/
theorem ctor_generate_order {T σ : Type} [Zero T] (expo expo2 : ExPo) (d : List Nat)
    (g : σ → T × σ) (s : σ) :
    (dynasor.ctor_generate true expo d g s).1.data.length = d.prod % SIZE_MOD
    ∧ (∀ k, k < d.prod % SIZE_MOD →
        (dynasor.ctor_generate true expo d g s).1.data[k]? = some (invocation_result g s k))
    ∧ (dynasor.ctor_generate true expo d g s).2 = invocation_state g s (d.prod % SIZE_MOD)
    ∧ (dynasor.ctor_generate true expo d (counting g) (s, 0)).2.2 = d.prod % SIZE_MOD
    ∧ dynasor.ctor_generate true expo d g s = dynasor.ctor_generate true expo2 d g s := by
  refine ⟨?_, ?_, ?_, ?_, ?_⟩
  · rw [ctor_generate_eq, dynasor.data]
    simp
  · intro k hk
    rw [ctor_generate_eq, dynasor.data]
    simp [hk]
  · rw [ctor_generate_eq]
  · rw [ctor_generate_eq, counting_state]
    simp
  · rw [ctor_generate_eq, ctor_generate_eq]

/-- C12 (witness): shape `[2,3]` and a generator counting up from 10; slot 4
holds the result of invocation number 4, which is 14. -/
theorem ctor_generate_order_witness :
    4 < [2, 3].prod % SIZE_MOD
    ∧ (dynasor.ctor_generate true .par [2, 3] (fun n : Int => (n, n + 1)) 10).1.data[4]?
        = some (invocation_result (fun n : Int => (n, n + 1)) 10 4)
    ∧ invocation_result (fun n : Int => (n, n + 1)) 10 4 = 14
    ∧ (dynasor.ctor_generate true .par [2, 3]
        (counting (fun n : Int => (n, n + 1))) (10, 0)).2.2 = 6 :=
  ⟨by decide,
    (ctor_generate_order .par .seq [2, 3] (fun n : Int => (n, n + 1)) 10).2.1 4 (by decide),
    by decide,
    (ctor_generate_order .par .seq [2, 3] (fun n : Int => (n, n + 1)) 10).2.2.2.1⟩

/-! ## C13: assignment through the mutable accessor -/

theorem index_same_extents {T : Type} (t t1 : dynasor T) (j : List Nat)
    (h : t1.number_of_elements_in_dimension_ = t.number_of_elements_in_dimension_) :
    t1.index j = t.index j := by
  unfold dynasor.index dynasor.number_of_dimensions
  rw [h]

theorem assign_then_read_of_in_range {T : Type} (t : dynasor T) (i : List Nat) (x : T)
    (h2 : 2 ≤ t.number_of_dimensions)
    (hp : t.number_of_elements_in_dimension_.prod < SIZE_MOD)
    (hdata : t.data_.length = t.number_of_elements_in_dimension_.prod)
    (hr : in_range t.number_of_elements_in_dimension_ i) :
    t.assign_then_read i x := by
  obtain ⟨hi, hlt⟩ := index_of_in_range t i h2 hp hr
  have hk : row_major t.number_of_elements_in_dimension_ i < t.data_.length := by
    rw [hdata]; exact hlt
  have hassign : t.data_assign (row_major t.number_of_elements_in_dimension_ i) x
      = .ok { t with data_ := t.data_.set (row_major t.number_of_elements_in_dimension_ i) x } := by
    unfold dynasor.data_assign
    rw [if_pos hk]
  have hi1 : ∀ j, dynasor.index
      { t with data_ := t.data_.set (row_major t.number_of_elements_in_dimension_ i) x } j
        = t.index j := fun j => index_same_extents t _ j rfl
  refine ⟨{ t with data_ := t.data_.set (row_major t.number_of_elements_in_dimension_ i) x },
    ?_, ?_, ?_, ?_, ?_, rfl, rfl, ?_⟩
  · simp only [dynasor.element_assign, hi, hassign]
  · simp only [dynasor.call_assign, hi, hassign]
  · simp only [dynasor.element, hi1, hi, dynasor.data_at, List.getElem?_set_self hk]
  · simp only [dynasor.call, hi1, hi, dynasor.data_at, List.getElem?_set_self hk]
  · intro j hj hne
    obtain ⟨hij, hjlt⟩ := index_of_in_range t j h2 hp hj
    have hkj : row_major t.number_of_elements_in_dimension_ i
        ≠ row_major t.number_of_elements_in_dimension_ j := by
      intro heq
      exact hne (row_major_inj _ j i hj hr heq.symm)
    have hjk : row_major t.number_of_elements_in_dimension_ j < t.data_.length := by
      rw [hdata]; exact hjlt
    refine ⟨t.data_[row_major t.number_of_elements_in_dimension_ j], ?_, ?_, ?_, ?_⟩
    · simp only [dynasor.element, hij, dynasor.data_at, List.getElem?_eq_getElem hjk]
    · simp only [dynasor.element, hi1, hij, dynasor.data_at, List.getElem?_set_ne hkj,
        List.getElem?_eq_getElem hjk]
    · simp only [dynasor.call, hij, dynasor.data_at, List.getElem?_eq_getElem hjk]
    · simp only [dynasor.call, hi1, hij, dynasor.data_at, List.getElem?_set_ne hkj,
        List.getElem?_eq_getElem hjk]
  · simp [dynasor.data]

/-- C13 (counterexample).  For shape `[4]`, the in-range multi-index `(2)` and
the value 9, the assignment through `element` reads the multi-index out of
bounds, writes nothing, and the read-only accessor at `(2)` does not return 9;
for shape `[2^32, 2^32]`, whose storage is empty, the assignment at the
in-range multi-index `(0,0)` falls outside the storage. -/
theorem assign_counterexample :
    (in_range (dynasor.ctor_shape .seq [4] : dynasor Int).number_of_elements_in_dimension_ [2]
      ∧ (dynasor.ctor_shape .seq [4] : dynasor Int).element_assign [2] 9
          = (.error .undefined_behaviour, dynasor.ctor_shape .seq [4])
      ∧ (dynasor.ctor_shape .seq [4] : dynasor Int).element [2] ≠ .ok 9)
    ∧ (in_range
          (dynasor.ctor_fill .seq [2 ^ 32, 2 ^ 32] (7 : Int)).number_of_elements_in_dimension_
          [0, 0]
      ∧ (dynasor.ctor_fill .seq [2 ^ 32, 2 ^ 32] (7 : Int)).element_assign [0, 0] 9
          = (.error .undefined_behaviour, dynasor.ctor_fill .seq [2 ^ 32, 2 ^ 32] 7)) := by
  decide

/-- C13 (amended).  For every tensor built by the shape-only or shape + fill
value constructor from a shape of rank at least 2 whose extents are `size_t`
values with exact product below `2^64`, every in-range multi-index `i` and
every value `x`: after assigning `x` through the mutable accessor `element(i)`
(or `operator()(i)`), the read-only accessor at `i` returns `x`, the read-only
accessor at every other in-range multi-index returns the value it returned
before, and the rank, the extents and the storage length are unchanged. -/
theorem assign_frame {T : Type} [Zero T] (expo : ExPo) (d : List Nat) (v x : T) (i : List Nat)
    (h2 : 2 ≤ d.length) (hd : ∀ e ∈ d, e < SIZE_MOD) (hp : d.prod < SIZE_MOD)
    (hr : in_range d i) :
    (dynasor.ctor_shape expo d : dynasor T).assign_then_read i x
    ∧ (dynasor.ctor_fill expo d v).assign_then_read i x := by
  have hm := map_to_size_t_of_lt d hd
  constructor
  · have hdims : (dynasor.ctor_shape expo d : dynasor T).number_of_elements_in_dimension_ = d := by
      rw [ctor_shape_dims, hm]
    apply assign_then_read_of_in_range
    · rw [dynasor.number_of_dimensions, hdims]; exact h2
    · rw [hdims]; exact hp
    · rw [hdims, ctor_shape_data, List.length_replicate, Nat.mod_eq_of_lt hp]
    · rw [hdims]; exact hr
  · have hdims : (dynasor.ctor_fill expo d v).number_of_elements_in_dimension_ = d := by
      rw [ctor_fill_dims, hm]
    apply assign_then_read_of_in_range
    · rw [dynasor.number_of_dimensions, hdims]; exact h2
    · rw [hdims]; exact hp
    · rw [hdims, ctor_fill_data, List.length_replicate, Nat.mod_eq_of_lt hp]
    · rw [hdims]; exact hr

/-- C13 (witness): shape `[2,3]`, fill value 7, multi-index `(1,2)`, value 9. -/
theorem assign_frame_witness :
    (2 ≤ [2, 3].length ∧ (∀ e ∈ [2, 3], e < SIZE_MOD) ∧ [2, 3].prod < SIZE_MOD
      ∧ in_range [2, 3] [1, 2])
    ∧ ((dynasor.ctor_shape .seq [2, 3] : dynasor Int).assign_then_read [1, 2] 9
      ∧ (dynasor.ctor_fill .seq [2, 3] (7 : Int)).assign_then_read [1, 2] 9) :=
  ⟨⟨by decide, by decide, by decide, by decide⟩,
    assign_frame .seq [2, 3] (7 : Int) 9 [1, 2] (by decide) (by decide) (by decide) (by decide)⟩

/-! ## The random factories -/

theorem zeros_eq {T : Type} [Zero T] (expo : ExPo) (d : List Nat) :
    (dynasor.zeros expo d : dynasor T)
      = { number_of_elements_in_dimension_ := d.map to_size_t,
          data_ := List.replicate (d.prod % SIZE_MOD) 0 } := by
  have h1 := ctor_fill_dims expo d (0 : T)
  have h2 := ctor_fill_data expo d (0 : T)
  unfold dynasor.zeros
  cases h : dynasor.ctor_fill expo d (0 : T) with
  | mk dims dat =>
    rw [h] at h1 h2
    simp only at h1 h2
    rw [h1, h2]

theorem uniform_random_ok {T R : Type} [Zero T] (seed_engine : Nat → R)
    (rnd : T → T → R → T × R) (expo : ExPo) (d : List Nat) (seed : Nat) (a b : T) :
    dynasor.uniform_random seed_engine rnd expo d seed a b
      = .ok { number_of_elements_in_dimension_ := d.map to_size_t,
              data_ := (List.range (d.prod % SIZE_MOD)).map
                (invocation_result (rnd a b) (seed_engine seed)) } := by
  unfold dynasor.uniform_random
  simp only [zeros_eq, std_generate_eq, List.length_replicate]

theorem normal_random_ok {T R D : Type} [Zero T] (seed_engine : Nat → R)
    (make : T → T → D) (rnd : D × R → T × (D × R)) (expo : ExPo) (d : List Nat) (seed : Nat)
    (mu sigma : T) :
    dynasor.normal_random seed_engine make rnd expo d seed mu sigma
      = .ok { number_of_elements_in_dimension_ := d.map to_size_t,
              data_ := (List.range (d.prod % SIZE_MOD)).map
                (invocation_result rnd (make mu sigma, seed_engine seed)) } := by
  unfold dynasor.normal_random
  simp only [zeros_eq, std_generate_eq, List.length_replicate]

theorem toy_uniform_between (a b : Int) (r : Nat) (hab : a ≤ b) :
    a ≤ (toy_uniform a b r).1 ∧ (toy_uniform a b r).1 ≤ b := by
  unfold toy_uniform
  have hpos : (0 : Int) < b - a + 1 := by omega
  have h1 := Int.emod_nonneg (r : Int) (ne_of_gt hpos)
  have h2 := Int.emod_lt_of_pos (r : Int) hpos
  constructor
  · show a ≤ a + (r : Int) % (b - a + 1)
    omega
  · show a + (r : Int) % (b - a + 1) ≤ b
    omega

/-! ## C14: invalid distribution parameters -/

/-- C14 (counterexample).  With `a = 1 > b = 0` on shape `[4]` and seed 1,
`uniform_random` does not fail with `InvalidDistributionParameters`: it returns
a tensor of four elements; so do `normal_random` and `gaussian_random` on shape
`[4]` with seed 1, `mu = 0` and `sigma = -1`. -/
theorem random_parameters_counterexample :
    (dynasor.uniform_random toy_seed toy_uniform .seq [4] 1 1 0
        ≠ .error .invalid_distribution_parameters
      ∧ ∃ t, dynasor.uniform_random toy_seed toy_uniform .seq [4] 1 1 0 = .ok t
          ∧ t.data.length = 4)
    ∧ (dynasor.normal_random toy_seed Prod.mk toy_normal .seq [4] 1 0 (-1)
        ≠ .error .invalid_distribution_parameters
      ∧ ∃ t, dynasor.normal_random toy_seed Prod.mk toy_normal .seq [4] 1 0 (-1) = .ok t
          ∧ t.data.length = 4)
    ∧ (dynasor.gaussian_random toy_seed Prod.mk toy_normal .seq [4] 1 0 (-1)
        ≠ .error .invalid_distribution_parameters
      ∧ ∃ t, dynasor.gaussian_random toy_seed Prod.mk toy_normal .seq [4] 1 0 (-1) = .ok t
          ∧ t.data.length = 4) := by
  refine ⟨⟨by decide, _, rfl, by decide⟩, ⟨by decide, _, rfl, by decide⟩,
    ⟨by decide, _, rfl, by decide⟩⟩

/-- C14 (amended).  `uniform_random` called with `a > b`, and `normal_random`
and `gaussian_random` called with `sigma ≤ 0`, make no test of their
parameters and do not fail, for every shape and seed: each call returns a
tensor of the given shape whose storage has the length of the extent product
modulo `2^64` and holds, in offset order, the draws of the distribution
constructed from these parameters. -/
theorem random_parameters_unchecked {T R D : Type} [Zero T] [LinearOrder T]
    (seed_engine : Nat → R) (rnd : T → T → R → T × R) (make : T → T → D)
    (nrnd : D × R → T × (D × R)) (expo : ExPo) (d : List Nat) (seed : Nat) (a b mu sigma : T)
    (_hab : b < a) (_hs : sigma ≤ 0) :
    (dynasor.uniform_random seed_engine rnd expo d seed a b
        = .ok { number_of_elements_in_dimension_ := d.map to_size_t,
                data_ := (List.range (d.prod % SIZE_MOD)).map
                  (invocation_result (rnd a b) (seed_engine seed)) }
      ∧ dynasor.uniform_random seed_engine rnd expo d seed a b
        ≠ .error .invalid_distribution_parameters)
    ∧ (dynasor.normal_random seed_engine make nrnd expo d seed mu sigma
        = .ok { number_of_elements_in_dimension_ := d.map to_size_t,
                data_ := (List.range (d.prod % SIZE_MOD)).map
                  (invocation_result nrnd (make mu sigma, seed_engine seed)) }
      ∧ dynasor.normal_random seed_engine make nrnd expo d seed mu sigma
        ≠ .error .invalid_distribution_parameters)
    ∧ (dynasor.gaussian_random seed_engine make nrnd expo d seed mu sigma
        = .ok { number_of_elements_in_dimension_ := d.map to_size_t,
                data_ := (List.range (d.prod % SIZE_MOD)).map
                  (invocation_result nrnd (make mu sigma, seed_engine seed)) }
      ∧ dynasor.gaussian_random seed_engine make nrnd expo d seed mu sigma
        ≠ .error .invalid_distribution_parameters) := by
  have hu := uniform_random_ok seed_engine rnd expo d seed a b
  have hn := normal_random_ok seed_engine make nrnd expo d seed mu sigma
  have hg : dynasor.gaussian_random seed_engine make nrnd expo d seed mu sigma
      = .ok { number_of_elements_in_dimension_ := d.map to_size_t,
              data_ := (List.range (d.prod % SIZE_MOD)).map
                (invocation_result nrnd (make mu sigma, seed_engine seed)) } := by
    unfold dynasor.gaussian_random
    exact hn
  refine ⟨⟨hu, ?_⟩, ⟨hn, ?_⟩, ⟨hg, ?_⟩⟩
  · rw [hu]
    intro h
    cases h
  · rw [hn]
    intro h
    cases h
  · rw [hg]
    intro h
    cases h

/-- C14 (witness): shape `[4]`, seed 1, `a = 1`, `b = 0`, `mu = 0`, `sigma = -1`. -/
theorem random_parameters_unchecked_witness :
    ((0 : Int) < 1 ∧ (-1 : Int) ≤ 0)
    ∧ dynasor.uniform_random toy_seed toy_uniform .seq [4] 1 1 0
        ≠ .error .invalid_distribution_parameters
    ∧ dynasor.normal_random toy_seed Prod.mk toy_normal .seq [4] 1 0 (-1)
        ≠ .error .invalid_distribution_parameters :=
  ⟨⟨by decide, by decide⟩,
    (random_parameters_unchecked toy_seed toy_uniform Prod.mk toy_normal .seq [4] 1 1 0 0 (-1)
      (by decide) (by decide)).1.2,
    (random_parameters_unchecked toy_seed toy_uniform Prod.mk toy_normal .seq [4] 1 1 0 0 (-1)
      (by decide) (by decide)).2.1.2⟩

/-! ## C15: a zero extent gives empty storage -/

theorem prod_eq_zero_of_mem (d : List Nat) (h : 0 ∈ d) : d.prod % SIZE_MOD = 0 := by
  rw [List.prod_eq_zero h]
  rfl

/-- C15.  For every shape with at least one extent equal to 0, the tensors
produced by the shape-only constructor, the shape + fill value constructor,
the generator constructor and the `zeros` / `ones` factories have empty
storage, whatever the other extents are. -/
theorem zero_extent_empty {T σ : Type} [Zero T] [One T] (expo : ExPo) (d : List Nat) (v : T)
    (invocable : Bool) (g : σ → T × σ) (s : σ) (h : 0 ∈ d) :
    (dynasor.ctor_shape expo d : dynasor T).data.length = 0
    ∧ (dynasor.ctor_fill expo d v).data.length = 0
    ∧ (dynasor.ctor_generate invocable expo d g s).1.data.length = 0
    ∧ (dynasor.zeros expo d : dynasor T).data.length = 0
    ∧ (dynasor.ones expo d : dynasor T).data.length = 0 := by
  have h0 := prod_eq_zero_of_mem d h
  have hfill : ∀ w : T, (dynasor.ctor_fill expo d w).data.length = 0 := by
    intro w
    rw [dynasor.data, ctor_fill_data, List.length_replicate, h0]
  refine ⟨?_, hfill v, ?_, hfill 0, hfill 1⟩
  · rw [dynasor.data, ctor_shape_data, List.length_replicate, h0]
  · cases invocable with
    | true => rw [dynasor.data, ctor_generate_length, h0]
    | false => simp [dynasor.ctor_generate, dynasor.data]

/-- C15 (witness): shape `[2,0,3]`. -/
theorem zero_extent_empty_witness :
    0 ∈ [2, 0, 3]
    ∧ ((dynasor.ctor_shape .seq [2, 0, 3] : dynasor Int).data.length = 0
      ∧ (dynasor.ctor_fill .seq [2, 0, 3] (7 : Int)).data.length = 0
      ∧ (dynasor.ctor_generate true .seq [2, 0, 3] (fun n : Int => (n, n + 1)) 0).1.data.length
          = 0
      ∧ (dynasor.zeros .seq [2, 0, 3] : dynasor Int).data.length = 0
      ∧ (dynasor.ones .seq [2, 0, 3] : dynasor Int).data.length = 0) :=
  ⟨by decide,
    zero_extent_empty .seq [2, 0, 3] (7 : Int) true (fun n : Int => (n, n + 1)) 0 (by decide)⟩

/-! ## C16: the random factories are functions of shape, seed and parameters -/

/-- C16.  For every shape, seed and distribution parameters, two calls of
`uniform_random` with identical arguments, under any two execution-policy
hints, return tensors with identical shape and identical storage, and likewise
two calls of `normal_random` or `gaussian_random`: the shape is the given
shape and the element at offset `k` is draw number `k` from the engine seeded
inside the call with `seed`, so the result depends only on the shape, the seed
and the parameters. -/
theorem random_determinism {T R D : Type} [Zero T]
    (seed_engine : Nat → R) (rnd : T → T → R → T × R) (make : T → T → D)
    (nrnd : D × R → T × (D × R)) (expo1 expo2 : ExPo) (d : List Nat) (seed : Nat)
    (a b mu sigma : T) :
    (dynasor.uniform_random seed_engine rnd expo1 d seed a b
        = .ok { number_of_elements_in_dimension_ := d.map to_size_t,
                data_ := (List.range (d.prod % SIZE_MOD)).map
                  (invocation_result (rnd a b) (seed_engine seed)) }
      ∧ dynasor.uniform_random seed_engine rnd expo2 d seed a b
        = dynasor.uniform_random seed_engine rnd expo1 d seed a b)
    ∧ (dynasor.normal_random seed_engine make nrnd expo1 d seed mu sigma
        = .ok { number_of_elements_in_dimension_ := d.map to_size_t,
                data_ := (List.range (d.prod % SIZE_MOD)).map
                  (invocation_result nrnd (make mu sigma, seed_engine seed)) }
      ∧ dynasor.normal_random seed_engine make nrnd expo2 d seed mu sigma
        = dynasor.normal_random seed_engine make nrnd expo1 d seed mu sigma
      ∧ dynasor.gaussian_random seed_engine make nrnd expo2 d seed mu sigma
        = dynasor.normal_random seed_engine make nrnd expo1 d seed mu sigma) := by
  refine ⟨⟨uniform_random_ok seed_engine rnd expo1 d seed a b, ?_⟩,
    normal_random_ok seed_engine make nrnd expo1 d seed mu sigma, ?_, ?_⟩
  · rw [uniform_random_ok seed_engine rnd expo1 d seed a b,
      uniform_random_ok seed_engine rnd expo2 d seed a b]
  · rw [normal_random_ok seed_engine make nrnd expo1 d seed mu sigma,
      normal_random_ok seed_engine make nrnd expo2 d seed mu sigma]
  · unfold dynasor.gaussian_random
    rw [normal_random_ok seed_engine make nrnd expo1 d seed mu sigma,
      normal_random_ok seed_engine make nrnd expo2 d seed mu sigma]

/-- C16 (instance): shape `[3,2]`, seed 4373, `a = -2`, `b = 1`, and `mu = 0`,
`sigma = 1`, under the hints `par` and `seq`. -/
theorem random_determinism_witness :
    dynasor.uniform_random toy_seed toy_uniform .seq [3, 2] 4373 (-2) 1
        = dynasor.uniform_random toy_seed toy_uniform .par [3, 2] 4373 (-2) 1
    ∧ dynasor.normal_random toy_seed Prod.mk toy_normal .seq [3, 2] 4373 0 1
        = dynasor.normal_random toy_seed Prod.mk toy_normal .par [3, 2] 4373 0 1 :=
  ⟨(random_determinism toy_seed toy_uniform Prod.mk toy_normal .par .seq [3, 2] 4373
      (-2) 1 0 1).1.2,
    (random_determinism toy_seed toy_uniform Prod.mk toy_normal .par .seq [3, 2] 4373
      (-2) 1 0 1).2.2.1⟩

/-! ## C17: the range of `uniform_random` on an integer element type -/

/-- C17 (counterexample).  For shape `[2^32, 2^32]`, seed 4373, `a = -2` and
`b = 1`, `uniform_random` returns a tensor with empty storage, whereas the
product of the extents is `2^64`. -/
theorem uniform_random_length_counterexample :
    dynasor.uniform_random toy_seed toy_uniform .seq [2 ^ 32, 2 ^ 32] 4373 (-2) 1
        = .ok { number_of_elements_in_dimension_ := [2 ^ 32, 2 ^ 32], data_ := [] }
    ∧ ([] : List Int).length ≠ [2 ^ 32, 2 ^ 32].prod := by
  decide

/-- C17 (amended).  For an integer element type, every shape, every seed and
every `a ≤ b`, with a `std::uniform_int_distribution` whose draws lie in
`[a, b]`, `uniform_random(shape, seed, a, b)` returns a tensor whose storage
length is the product of the extents reduced modulo `2^64` (the product itself
whenever that is below `2^64`) and whose every element `e` satisfies
`a ≤ e ≤ b`; for extents `{3,2}`, seed 4373, `a = -2`, `b = 1`: six elements,
each in `{-2,-1,0,1}`. -/
theorem uniform_random_between {R : Type} (seed_engine : Nat → R)
    (rnd : Int → Int → R → Int × R)
    (hrnd : ∀ a b r, a ≤ b → a ≤ (rnd a b r).1 ∧ (rnd a b r).1 ≤ b)
    (expo : ExPo) (d : List Nat) (seed : Nat) (a b : Int) (hab : a ≤ b) :
    (∃ t, dynasor.uniform_random seed_engine rnd expo d seed a b = .ok t
      ∧ t.data.length = d.prod % SIZE_MOD
      ∧ (d.prod < SIZE_MOD → t.data.length = d.prod)
      ∧ ∀ e ∈ t.data, a ≤ e ∧ e ≤ b)
    ∧ (∃ t, dynasor.uniform_random seed_engine rnd .par [3, 2] 4373 (-2) 1 = .ok t
      ∧ t.data.length = 6
      ∧ ∀ e ∈ t.data, e = -2 ∨ e = -1 ∨ e = 0 ∨ e = 1) := by
  have key : ∀ (e2 : ExPo) (d2 : List Nat) (s2 : Nat) (a2 b2 : Int), a2 ≤ b2 →
      ∃ t, dynasor.uniform_random seed_engine rnd e2 d2 s2 a2 b2 = .ok t
        ∧ t.data.length = d2.prod % SIZE_MOD
        ∧ ∀ e ∈ t.data, a2 ≤ e ∧ e ≤ b2 := by
    intro e2 d2 s2 a2 b2 h
    refine ⟨_, uniform_random_ok seed_engine rnd e2 d2 s2 a2 b2, ?_, ?_⟩
    · simp [dynasor.data]
    · intro e he
      simp only [dynasor.data, List.mem_map] at he
      obtain ⟨k, _, rfl⟩ := he
      exact hrnd a2 b2 _ h
  constructor
  · obtain ⟨t, ht, hl, hr⟩ := key expo d seed a b hab
    refine ⟨t, ht, hl, ?_, hr⟩
    intro hp
    rw [hl, Nat.mod_eq_of_lt hp]
  · obtain ⟨t, ht, hl, hr⟩ := key .par [3, 2] 4373 (-2) 1 (by decide)
    refine ⟨t, ht, ?_, ?_⟩
    · rw [hl]
      decide
    · intro e he
      have := hr e he
      omega

/-- C17 (witness): the demo call, extents `{3,2}`, seed 4373, `a = -2`, `b = 1`. -/
theorem uniform_random_between_witness :
    (-2 : Int) ≤ 1
    ∧ ∃ t, dynasor.uniform_random toy_seed toy_uniform .par [3, 2] 4373 (-2) 1 = .ok t
      ∧ t.data.length = [3, 2].prod % SIZE_MOD
      ∧ ([3, 2].prod < SIZE_MOD → t.data.length = [3, 2].prod)
      ∧ ∀ e ∈ t.data, (-2 : Int) ≤ e ∧ e ≤ 1 :=
  ⟨by decide,
    (uniform_random_between toy_seed toy_uniform toy_uniform_between .par [3, 2] 4373
      (-2) 1 (by decide)).1⟩

/-! ## C18: the nested loops of `index` and the Horner scheme -/

theorem foldl_horner (ds is_ : List Nat) (acc : Nat) (hlen : is_.length = ds.length) :
    (List.zip ds is_).foldl (fun acc p => acc * p.1 + p.2) acc
      = acc * ds.prod + row_major ds is_ := by
  induction ds generalizing is_ acc with
  | nil => simp [row_major]
  | cons x xs ih =>
    cases is_ with
    | nil => simp at hlen
    | cons a r =>
      rw [List.zip_cons_cons, List.foldl_cons, ih r _ (by simpa using hlen), row_major,
        List.prod_cons]
      ring

theorem horner_offset_eq_row_major (d i : List Nat) (hlen : i.length = d.length) :
    horner_offset d i = row_major d i := by
  unfold horner_offset
  rw [foldl_horner d i 0 hlen, Nat.zero_mul, Nat.zero_add]

/-- C18.  For every tensor of rank `R ≥ 2` with extents `d` and every
multi-index `i` of length `R`, the offset computed by the nested loops of
`index` equals the Horner-scheme evaluation `acc := acc * d[k] + i[k]` over
`k = 0..R-1` from `acc = 0`, in which the factor `d[0]` drops out, i.e.
`(...((i[0] * d[1] + i[1]) * d[2] + i[2])...) * d[R-1] + i[R-1]`, both sides
taken modulo `2^64`. -/
theorem index_horner {T : Type} (t : dynasor T) (idx : List Nat)
    (h2 : 2 ≤ t.number_of_dimensions) (hlen : idx.length = t.number_of_dimensions) :
    (∃ v, t.index idx = .ok v
      ∧ v % SIZE_MOD = horner_offset t.number_of_elements_in_dimension_ idx % SIZE_MOD)
    ∧ t.index idx = .ok (horner_offset t.number_of_elements_in_dimension_ idx % SIZE_MOD)
    ∧ (∀ d0 d1 d2 i0 i1 i2 : Nat,
        horner_offset [d0, d1, d2] [i0, i1, i2] = (i0 * d1 + i1) * d2 + i2) := by
  have h1 : 1 ≤ t.number_of_elements_in_dimension_.length := by
    unfold dynasor.number_of_dimensions at h2
    omega
  have h : t.index idx
      = .ok (horner_offset t.number_of_elements_in_dimension_ idx % SIZE_MOD) := by
    rw [index_eq_spec_offset_mod t idx hlen h2, spec_offset_eq_row_major _ _ hlen h1,
      horner_offset_eq_row_major _ _ hlen]
  refine ⟨⟨_, h, Nat.mod_mod _ _⟩, h, ?_⟩
  intro d0 d1 d2 i0 i1 i2
  simp [horner_offset]

/-- C18 (witness): shape `[2,3,4]`, multi-index `(1,2,3)`, offset 23. -/
theorem index_horner_witness :
    (2 ≤ (dynasor.ctor_shape .seq [2, 3, 4] : dynasor Int).number_of_dimensions
      ∧ [1, 2, 3].length = (dynasor.ctor_shape .seq [2, 3, 4] : dynasor Int).number_of_dimensions)
    ∧ (dynasor.ctor_shape .seq [2, 3, 4] : dynasor Int).index [1, 2, 3]
        = .ok (horner_offset [2, 3, 4] [1, 2, 3] % SIZE_MOD)
    ∧ horner_offset [2, 3, 4] [1, 2, 3] = 23 :=
  ⟨⟨by decide, by decide⟩,
    (index_horner (dynasor.ctor_shape .seq [2, 3, 4] : dynasor Int) [1, 2, 3]
      (by decide) (by decide)).2.1,
    by decide⟩

/-! ## C19: no intermediate value of `index` wraps around -/

theorem in_range_pos (d i : List Nat) (h : in_range d i) : ∀ x ∈ d, 0 < x := by
  induction d generalizing i with
  | nil => simp
  | cons x xs ih =>
    cases i with
    | nil => have := h.1; simp at this
    | cons a r =>
      rw [in_range_cons] at h
      intro y hy
      rcases List.mem_cons.mp hy with rfl | hy
      · omega
      · exact ih r h.2 y hy

theorem prod_drop_le (d : List Nat) (hpos : ∀ x ∈ d, 0 < x) (k : Nat) :
    (d.drop k).prod ≤ d.prod := by
  have h := List.prod_take_mul_prod_drop d k
  have h1 : 0 < (d.take k).prod :=
    List.prod_pos (fun a ha => hpos a (List.mem_of_mem_take ha))
  calc (d.drop k).prod ≤ (d.take k).prod * (d.drop k).prod := Nat.le_mul_of_pos_left _ h1
    _ = d.prod := h

theorem prod_drop_pos (d : List Nat) (hpos : ∀ x ∈ d, 0 < x) (k : Nat) :
    0 < (d.drop k).prod :=
  List.prod_pos (fun a ha => hpos a (List.mem_of_mem_drop ha))

theorem index_inner_checked_eq (dims : List Nat) (h1 : 1 ≤ dims.length)
    (hpos : ∀ x ∈ dims, 0 < x) (steps m nm : Nat)
    (hm : m ≤ dims.length) (hs : dims.length - m < steps)
    (hb : nm * (dims.drop m).prod < SIZE_MOD) :
    dynasor.index_inner_checked dims (dims.length - 1) steps m nm
      = .ok (nm * (dims.drop m).prod) := by
  induction steps generalizing m nm with
  | zero => omega
  | succ steps ih =>
    unfold dynasor.index_inner_checked
    by_cases hle : m ≤ dims.length - 1
    · have hlt : m < dims.length := by omega
      have hdrop := List.drop_eq_getElem_cons hlt
      rw [hdrop, List.prod_cons, ← Nat.mul_assoc] at hb
      have hrest := prod_drop_pos dims hpos (m + 1)
      have hfit : nm * dims[m] < SIZE_MOD :=
        lt_of_le_of_lt (Nat.le_mul_of_pos_right _ hrest) hb
      rw [if_pos hle, List.getElem?_eq_getElem hlt]
      simp only [mul_no_wrap, if_pos hfit]
      rw [ih (m + 1) _ (by omega) (by omega) hb, hdrop, List.prod_cons, Nat.mul_assoc]
    · have hmeq : m = dims.length := by omega
      rw [if_neg hle, List.drop_of_length_le (by omega)]
      simp

theorem index_outer_checked_eq (dims idx : List Nat) (hlen : idx.length = dims.length)
    (h2 : 2 ≤ dims.length) (hpos : ∀ x ∈ dims, 0 < x) (hprod : dims.prod < SIZE_MOD)
    (steps d I : Nat) (hd : d ≤ dims.length - 1) (hs : dims.length - 1 - d < steps)
    (hb : I + ∑ k ∈ Finset.Ico d (dims.length - 1),
        idx.getD k 0 * (dims.drop (k + 1)).prod < SIZE_MOD) :
    dynasor.index_outer_checked dims idx dims.length steps d I
      = .ok (I + ∑ k ∈ Finset.Ico d (dims.length - 1),
          idx.getD k 0 * (dims.drop (k + 1)).prod) := by
  have hu2 : usub dims.length 2 = dims.length - 2 := by unfold usub; rw [if_pos h2]
  have hu1 : usub dims.length 1 = dims.length - 1 := by unfold usub; rw [if_pos (by omega)]
  induction steps generalizing d I with
  | zero => omega
  | succ steps ih =>
    unfold dynasor.index_outer_checked
    rw [hu2, hu1]
    by_cases hle : d ≤ dims.length - 2
    · have hlt : d < idx.length := by omega
      have hg : idx.getD d 0 = idx[d] := by
        simp [List.getD_eq_getElem?_getD, List.getElem?_eq_getElem hlt]
      rw [Finset.sum_eq_sum_Ico_succ_bot (by omega : d < dims.length - 1), hg] at hb ⊢
      have hsp : 1 * (dims.drop (d + 1)).prod < SIZE_MOD := by
        rw [Nat.one_mul]
        exact lt_of_le_of_lt (prod_drop_le dims hpos (d + 1)) hprod
      rw [if_pos hle, index_inner_checked_eq dims (by omega) hpos _ _ _ (by omega) (by omega) hsp]
      simp only
      rw [List.getElem?_eq_getElem hlt]
      simp only [Nat.one_mul]
      have hterm : idx[d] * (dims.drop (d + 1)).prod < SIZE_MOD := by omega
      have hsum : I + idx[d] * (dims.drop (d + 1)).prod < SIZE_MOD := by omega
      simp only [mul_no_wrap, if_pos hterm, add_no_wrap, if_pos hsum]
      rw [ih (d + 1) _ (by omega) (by omega) (by omega), Nat.add_assoc]
    · have hdeq : d = dims.length - 1 := by omega
      rw [if_neg hle, hdeq]
      simp

theorem index_checked_eq {T : Type} (t : dynasor T) (idx : List Nat)
    (h2 : 2 ≤ t.number_of_dimensions)
    (hp : t.number_of_elements_in_dimension_.prod < SIZE_MOD)
    (hr : in_range t.number_of_elements_in_dimension_ idx) :
    t.index_checked idx = .ok (spec_offset t.number_of_elements_in_dimension_ idx) := by
  have hlen : idx.length = t.number_of_elements_in_dimension_.length := hr.1
  have hpos := in_range_pos _ _ hr
  unfold dynasor.number_of_dimensions at h2
  have hoff : spec_offset t.number_of_elements_in_dimension_ idx < SIZE_MOD := by
    rw [spec_offset_eq_row_major _ _ hlen (by omega)]
    exact lt_trans (row_major_lt _ _ hr) hp
  have hu1 : usub t.number_of_elements_in_dimension_.length 1
      = t.number_of_elements_in_dimension_.length - 1 := by
    unfold usub; rw [if_pos (by omega)]
  have hlt : t.number_of_elements_in_dimension_.length - 1 < idx.length := by omega
  have hg : idx.getD (t.number_of_elements_in_dimension_.length - 1) 0
      = idx[t.number_of_elements_in_dimension_.length - 1] := by
    simp [List.getD_eq_getElem?_getD, List.getElem?_eq_getElem hlt]
  rw [spec_offset_eq_drop, Finset.range_eq_Ico, hg] at hoff ⊢
  unfold dynasor.index_checked dynasor.number_of_dimensions
  rw [if_pos hlen]
  simp only
  rw [index_outer_checked_eq _ idx hlen h2 hpos hp _ 0 0 (by omega) (by omega) (by omega), hu1]
  simp only
  rw [List.getElem?_eq_getElem hlt]
  simp only [Nat.zero_add] at hoff ⊢
  simp only [add_no_wrap, if_pos hoff]

theorem index_inner_checked_sound (dims : List Nat) (last steps m nm v : Nat)
    (h : dynasor.index_inner_checked dims last steps m nm = .ok v) :
    dynasor.index_inner dims last steps m nm = .ok v := by
  induction steps generalizing m nm with
  | zero => simp [dynasor.index_inner_checked] at h
  | succ steps ih =>
    unfold dynasor.index_inner_checked at h
    unfold dynasor.index_inner
    by_cases hle : m ≤ last
    · rw [if_pos hle] at h ⊢
      cases hx : dims[m]? with
      | none => rw [hx] at h; simp at h
      | some x =>
        rw [hx] at h
        simp only at h ⊢
        by_cases hfit : nm * x < SIZE_MOD
        · simp only [mul_no_wrap, if_pos hfit] at h
          rw [Nat.mod_eq_of_lt hfit]
          exact ih _ _ h
        · simp [mul_no_wrap, if_neg hfit] at h
    · rw [if_neg hle] at h ⊢
      exact h

theorem index_outer_checked_sound (dims idx : List Nat) (nd steps d I v : Nat)
    (hI : I < SIZE_MOD)
    (h : dynasor.index_outer_checked dims idx nd steps d I = .ok v) :
    dynasor.index_outer dims idx nd steps d I = .ok v := by
  induction steps generalizing d I with
  | zero => simp [dynasor.index_outer_checked] at h
  | succ steps ih =>
    unfold dynasor.index_outer_checked at h
    unfold dynasor.index_outer
    by_cases hle : d ≤ usub nd 2
    · rw [if_pos hle] at h ⊢
      cases hin : dynasor.index_inner_checked dims (usub nd 1) (dims.length + 1) (d + 1) 1 with
      | error e => rw [hin] at h; simp at h
      | ok nm =>
        rw [hin] at h
        rw [index_inner_checked_sound _ _ _ _ _ _ hin]
        simp only at h ⊢
        cases hx : idx[d]? with
        | none => rw [hx] at h; simp at h
        | some a =>
          rw [hx] at h
          simp only at h ⊢
          by_cases hterm : a * nm < SIZE_MOD
          · simp only [mul_no_wrap, if_pos hterm] at h
            by_cases hsum : I + a * nm < SIZE_MOD
            · simp only [add_no_wrap, if_pos hsum] at h
              rw [Nat.mod_eq_of_lt hterm, Nat.mod_eq_of_lt hsum]
              exact ih _ _ hsum h
            · simp [add_no_wrap, if_neg hsum] at h
          · simp [mul_no_wrap, if_neg hterm] at h
    · rw [if_neg hle] at h ⊢
      exact h

theorem index_checked_sound {T : Type} (t : dynasor T) (idx : List Nat) (v : Nat)
    (h : t.index_checked idx = .ok v) : t.index idx = .ok v := by
  unfold dynasor.index_checked at h
  unfold dynasor.index
  by_cases hlen : idx.length = t.number_of_dimensions
  · rw [if_pos hlen] at h ⊢
    simp only at h ⊢
    cases ho : dynasor.index_outer_checked t.number_of_elements_in_dimension_ idx
        t.number_of_dimensions (idx.length + 1) 0 0 with
    | error e => rw [ho] at h; simp at h
    | ok I =>
      rw [ho] at h
      rw [index_outer_checked_sound _ _ _ _ _ _ _ size_mod_pos ho]
      simp only at h ⊢
      cases hx : idx[usub t.number_of_dimensions 1]? with
      | none => rw [hx] at h; simp at h
      | some a =>
        rw [hx] at h
        simp only at h ⊢
        by_cases hsum : I + a < SIZE_MOD
        · simp only [add_no_wrap, if_pos hsum] at h
          rw [Nat.mod_eq_of_lt hsum]
          exact h
        · simp [add_no_wrap, if_neg hsum] at h
  · rw [if_neg hlen] at h
    simp at h

/-- C19.  For every tensor of rank `R ≥ 2` whose exact product of extents is
below `2^64` and every in-range multi-index `i`, no intermediate value of
`index` wraps around: the run in which every suffix product `nm`, every term
`i[k] * nm` and every sum `I` is tested against `2^64` completes, and the
64-bit result equals the exact row-major offset. -/
theorem index_no_wrap {T : Type} (t : dynasor T) (idx : List Nat)
    (h2 : 2 ≤ t.number_of_dimensions)
    (hp : t.number_of_elements_in_dimension_.prod < SIZE_MOD)
    (hr : in_range t.number_of_elements_in_dimension_ idx) :
    t.index_checked idx = .ok (spec_offset t.number_of_elements_in_dimension_ idx)
    ∧ t.index idx = .ok (spec_offset t.number_of_elements_in_dimension_ idx)
    ∧ spec_offset t.number_of_elements_in_dimension_ idx < SIZE_MOD := by
  have hc := index_checked_eq t idx h2 hp hr
  refine ⟨hc, index_checked_sound t idx _ hc, ?_⟩
  have hlen : idx.length = t.number_of_elements_in_dimension_.length := hr.1
  unfold dynasor.number_of_dimensions at h2
  rw [spec_offset_eq_row_major _ _ hlen (by omega)]
  exact lt_trans (row_major_lt _ _ hr) hp

/-- C19 (witness): shape `[2,3,4]`, multi-index `(1,2,3)`. -/
theorem index_no_wrap_witness :
    (2 ≤ (dynasor.ctor_shape .seq [2, 3, 4] : dynasor Int).number_of_dimensions
      ∧ (dynasor.ctor_shape .seq [2, 3, 4] : dynasor Int).number_of_elements_in_dimension_.prod
          < SIZE_MOD
      ∧ in_range (dynasor.ctor_shape .seq [2, 3, 4] : dynasor Int).number_of_elements_in_dimension_
          [1, 2, 3])
    ∧ (dynasor.ctor_shape .seq [2, 3, 4] : dynasor Int).index_checked [1, 2, 3]
        = .ok (spec_offset [2, 3, 4] [1, 2, 3])
    ∧ (dynasor.ctor_shape .seq [2, 3, 4] : dynasor Int).index [1, 2, 3]
        = .ok (spec_offset [2, 3, 4] [1, 2, 3]) :=
  ⟨⟨by decide, by decide, by decide⟩,
    (index_no_wrap (dynasor.ctor_shape .seq [2, 3, 4] : dynasor Int) [1, 2, 3]
      (by decide) (by decide) (by decide)).1,
    (index_no_wrap (dynasor.ctor_shape .seq [2, 3, 4] : dynasor Int) [1, 2, 3]
      (by decide) (by decide) (by decide)).2.1⟩

/-! ## C20: the storage length is a 64-bit product -/

/-- C20.  For every shape `d`, the storage length allocated by the shape-only,
shape + fill value and generator constructors is the product of the extents
reduced modulo `2^64`, so it equals the exact product if and only if that
product is below `2^64`; for shape `[2^32, 2^32]` the storage length is 0
although every extent is positive. -/
theorem data_size_mod {T σ : Type} [Zero T] (expo : ExPo) (d : List Nat) (v : T)
    (g : σ → T × σ) (s : σ) :
    ((dynasor.ctor_shape expo d : dynasor T).data.length = d.prod % SIZE_MOD
      ∧ (dynasor.ctor_fill expo d v).data.length = d.prod % SIZE_MOD
      ∧ (dynasor.ctor_generate true expo d g s).1.data.length = d.prod % SIZE_MOD)
    ∧ (((dynasor.ctor_shape expo d : dynasor T).data.length = d.prod ↔ d.prod < SIZE_MOD)
      ∧ ((dynasor.ctor_fill expo d v).data.length = d.prod ↔ d.prod < SIZE_MOD)
      ∧ ((dynasor.ctor_generate true expo d g s).1.data.length = d.prod ↔ d.prod < SIZE_MOD))
    ∧ ((∀ x ∈ [2 ^ 32, 2 ^ 32], 0 < x)
      ∧ (dynasor.ctor_shape .seq [2 ^ 32, 2 ^ 32] : dynasor Int).data.length = 0
      ∧ (dynasor.ctor_fill .seq [2 ^ 32, 2 ^ 32] (7 : Int)).data.length = 0
      ∧ (dynasor.ctor_generate true .seq [2 ^ 32, 2 ^ 32]
          (fun n : Int => (n, n + 1)) 0).1.data.length = 0) := by
  have h1 : (dynasor.ctor_shape expo d : dynasor T).data.length = d.prod % SIZE_MOD := by
    rw [dynasor.data, ctor_shape_data, List.length_replicate]
  have h2 : (dynasor.ctor_fill expo d v).data.length = d.prod % SIZE_MOD := by
    rw [dynasor.data, ctor_fill_data, List.length_replicate]
  have h3 : (dynasor.ctor_generate true expo d g s).1.data.length = d.prod % SIZE_MOD := by
    rw [dynasor.data, ctor_generate_length]
  have hiff : d.prod % SIZE_MOD = d.prod ↔ d.prod < SIZE_MOD :=
    Nat.mod_eq_iff_lt (Nat.pos_iff_ne_zero.mp size_mod_pos)
  refine ⟨⟨h1, h2, h3⟩, ⟨?_, ?_, ?_⟩, by decide⟩
  · rw [h1]; exact hiff
  · rw [h2]; exact hiff
  · rw [h3]; exact hiff

/-- C20 (witness): shape `[2,3,1,5]`, whose product 30 is below `2^64`. -/
theorem data_size_mod_witness :
    [2, 3, 1, 5].prod < SIZE_MOD
    ∧ (dynasor.ctor_shape .seq [2, 3, 1, 5] : dynasor Int).data.length = [2, 3, 1, 5].prod
    ∧ (dynasor.ctor_generate true .seq [2, 3, 1, 5]
        (fun n : Int => (n, n + 1)) 0).1.data.length = [2, 3, 1, 5].prod :=
  ⟨by decide,
    (data_size_mod .seq [2, 3, 1, 5] (7 : Int) (fun n : Int => (n, n + 1)) 0).2.1.1.mpr
      (by decide),
    (data_size_mod .seq [2, 3, 1, 5] (7 : Int) (fun n : Int => (n, n + 1)) 0).2.1.2.2.mpr
      (by decide)⟩
